import Mathlib

/-!
Verification of the bplib flash-backed object store (src/store/flash.c).

The C source is shallowly embedded: the global mutable state (block-control
array, free/bad lists, counters, device page contents) becomes an explicit
state record threaded through every function; C `while` loops become
fuel-indexed structural recursion (one unit of fuel per loop iteration, so any
run with sufficient fuel computes exactly what the C loop computes); machine
integers become `Nat`/`Int` with explicit reductions where the C widths
matter; the on-flash header struct is encoded/decoded as an explicit
little-endian byte list, following the layout fixed in the specification.
-/

namespace BplibFlash

/-- Status codes surfaced by the store (`BP_SUCCESS`, `BP_ERROR`, ...).
Their concrete integer values are irrelevant to the store's logic, which only
compares them for equality, so they are modelled as an inductive type. -/
inductive BPStatus where
  | SUCCESS
  | ERROR
  | TIMEOUT
  | STOREFULL
  | FAILEDSTORE
  | FAILEDMEM
  | FAILEDOS
  | INVALIDHANDLE
  deriving DecidableEq, Repr

/-- `BP_FLASH_INVALID_INDEX`: `bp_flash_index_t` is a 16-bit block/page index
and the all-ones value is the invalid sentinel terminating the lists. -/
def BP_FLASH_INVALID_INDEX : Nat := 65535

/-- `FLASH_OBJECT_SYNC`, the 64-bit magic starting every on-flash header. -/
def FLASH_OBJECT_SYNC : Nat := 0x425020464C415348

/-- `sizeof(flash_object_hdr_t)`: 8 bytes sync + 8 bytes timestamp +
`bp_object_t` (4 bytes handle + 4 bytes size + 8 bytes sid). -/
def FLASH_OBJECT_HDR_SIZE : Nat := 32

/-- `bp_flash_addr_t`: a (block, page) device address. -/
structure bp_flash_addr_t where
  block : Nat
  page : Nat
  deriving DecidableEq, Repr

/-- `bp_flash_driver_t`: device geometry plus outcome oracles for the device
operations.  `read`/`write`/`erase` give the status the driver reports at each
address (the data transfer itself is part of the model state), `isbad` is the
bad-block query. -/
structure bp_flash_driver_t where
  num_blocks : Nat
  pages_per_block : Nat
  page_size : Nat
  read : Nat → Nat → BPStatus
  write : Nat → Nat → BPStatus
  erase : Nat → BPStatus
  isbad : Nat → Bool

/-- `flash_block_control_t`: per-block control record.  `page_use` is the
page-use bitmap, indexed by page: `true` = bit set (live or unused),
`false` = bit clear (deleted). -/
structure flash_block_control_t where
  next_block : Nat
  prev_block : Nat
  max_pages : Nat
  page_use : Nat → Bool

/-- `flash_block_list_t` (`out` is the dequeue end, `inp` models the C field
named `in`, which is a Lean keyword). -/
structure flash_block_list_t where
  out : Nat
  inp : Nat
  count : Int

/-- The file-scope mutable state of flash.c, plus the device page contents
(block → page → byte offset → byte value). -/
structure FlashGlobals where
  flash_blocks : Nat → flash_block_control_t
  flash_free_blocks : flash_block_list_t
  flash_bad_blocks : flash_block_list_t
  flash_error_count : Int
  flash_used_block_count : Int
  pages : Nat → Nat → Nat → Nat

/-- Point update of the block-control array. -/
def updBlock (f : Nat → flash_block_control_t) (i : Nat) (b : flash_block_control_t) :
    Nat → flash_block_control_t :=
  fun j => if j = i then b else f j

/-- Selector for the two global lists (the C passes a pointer). -/
inductive WhichList where
  | free
  | bad
  deriving DecidableEq, Repr

def getList (s : FlashGlobals) : WhichList → flash_block_list_t
  | .free => s.flash_free_blocks
  | .bad => s.flash_bad_blocks

def setList (s : FlashGlobals) : WhichList → flash_block_list_t → FlashGlobals
  | .free, l => { s with flash_free_blocks := l }
  | .bad, l => { s with flash_bad_blocks := l }

/-- `flash_block_list_add`: append `block` at the `in` end. -/
def flash_block_list_add (s : FlashGlobals) (w : WhichList) (block : Nat) : FlashGlobals :=
  let l0 := getList s w
  let s1 :=
    if l0.out = BP_FLASH_INVALID_INDEX then
      setList s w ({ l0 with out := block })
    else
      let tailCtl := { s.flash_blocks l0.inp with next_block := block }
      { s with flash_blocks := updBlock s.flash_blocks l0.inp tailCtl }
  let newCtl := { s1.flash_blocks block with prev_block := l0.inp }
  let s2 := { s1 with flash_blocks := updBlock s1.flash_blocks block newCtl }
  let l2 := getList s2 w
  setList s2 w ({ l2 with inp := block, count := l2.count + 1 })

/-- `flash_free_reclaim`: reset the control record, decrement the used count,
and append to the free list (success) or the bad list (driver reports bad). -/
def flash_free_reclaim (D : bp_flash_driver_t) (s : FlashGlobals) (block : Nat) :
    BPStatus × FlashGlobals :=
  let freshCtl : flash_block_control_t :=
    { next_block := BP_FLASH_INVALID_INDEX, prev_block := BP_FLASH_INVALID_INDEX,
      max_pages := D.pages_per_block, page_use := fun _ => true }
  let s := { s with flash_blocks := updBlock s.flash_blocks block freshCtl }
  let s := { s with flash_used_block_count := s.flash_used_block_count - 1 }
  if D.isbad block = false then
    (BPStatus.SUCCESS, flash_block_list_add s .free block)
  else
    (BPStatus.ERROR, flash_block_list_add s .bad block)

/-- Physical block erase as seen by the model: the erased block reads back as
all `0xFF` bytes. -/
def eraseDevice (s : FlashGlobals) (block : Nat) : FlashGlobals :=
  { s with pages := fun b p o => if b = block then 255 else s.pages b p o }

/-- The `while` loop of `flash_free_allocate`, one iteration per unit of fuel.
`status` and `blockOut` are the loop-carried `status` variable and the `*block`
output parameter (`none` = never assigned). -/
def flash_free_allocate_loop (D : bp_flash_driver_t) (fuel : Nat) (status : BPStatus)
    (blockOut : Option Nat) (s : FlashGlobals) : BPStatus × Option Nat × FlashGlobals :=
  match fuel with
  | 0 => (status, blockOut, s)
  | fuel + 1 =>
    if status = BPStatus.SUCCESS ∨ s.flash_free_blocks.out = BP_FLASH_INVALID_INDEX then
      (status, blockOut, s)
    else
      let cand := s.flash_free_blocks.out
      let st := D.erase cand
      let (blockOut, s) :=
        if st = BPStatus.SUCCESS then
          (some cand,
           { eraseDevice s cand with flash_used_block_count := s.flash_used_block_count + 1 })
        else
          (blockOut,
           flash_block_list_add { s with flash_error_count := s.flash_error_count + 1 } .bad cand)
      let s := { s with flash_free_blocks := { s.flash_free_blocks with
                   out := (s.flash_blocks cand).next_block,
                   count := s.flash_free_blocks.count - 1 } }
      flash_free_allocate_loop D fuel st blockOut s

/-- `flash_free_allocate`.  A fuel of `num_blocks + 1` covers every iteration
the C loop can perform on a well-formed free list. -/
def flash_free_allocate (D : bp_flash_driver_t) (s : FlashGlobals) :
    BPStatus × Option Nat × FlashGlobals :=
  flash_free_allocate_loop D (D.num_blocks + 1) BPStatus.FAILEDSTORE none s

/-- Device page write: store `bytes` at the start of page `a` (bytes are
`uint8_t`, hence the reduction mod 256). -/
def writePageDev (s : FlashGlobals) (a : bp_flash_addr_t) (bytes : List Nat) : FlashGlobals :=
  { s with pages := fun b p o =>
      if b = a.block ∧ p = a.page ∧ o < bytes.length then bytes.getD o 0 % 256
      else s.pages b p o }

/-- Device page read of `n` bytes from page `(b, p)`. -/
def readPageDev (s : FlashGlobals) (b p n : Nat) : List Nat :=
  (List.range n).map fun o => s.pages b p o

/-- `flash_error_count++`. -/
def bumpError (s : FlashGlobals) : FlashGlobals :=
  { s with flash_error_count := s.flash_error_count + 1 }

/-- Store a block-control record into the array. -/
def setBlockCtl (s : FlashGlobals) (i : Nat) (ctl : flash_block_control_t) : FlashGlobals :=
  { s with flash_blocks := updBlock s.flash_blocks i ctl }

/-- The `while` loop of `flash_data_write`, one C iteration per unit of fuel;
`data` holds the bytes still to be written (`bytes_left = data.length`).
On a page-write failure at page 0 the block is reclaimed, at page > 0 the
block is truncated via `max_pages`; either way a replacement is allocated and
linked to the failing block's `prev_block` neighbor, and the same bytes are
retried at page 0 of the replacement. -/
def flash_data_write_loop (D : bp_flash_driver_t) (fuel : Nat) (s : FlashGlobals)
    (addr : bp_flash_addr_t) (data : List Nat) : BPStatus × FlashGlobals × bp_flash_addr_t :=
  match fuel with
  | 0 => (BPStatus.FAILEDSTORE, s, addr)
  | fuel + 1 =>
    if data.isEmpty then (BPStatus.SUCCESS, s, addr)
    else
      let bytes_to_copy := min data.length D.page_size
      let st := D.write addr.block addr.page
      if st = BPStatus.SUCCESS then
        let s := writePageDev s addr (data.take bytes_to_copy)
        let data := data.drop bytes_to_copy
        let addr : bp_flash_addr_t := { addr with page := addr.page + 1 }
        if addr.page = (s.flash_blocks addr.block).max_pages then
          let (st2, nbOpt, s) := flash_free_allocate D s
          if st2 = BPStatus.SUCCESS then
            let nb := nbOpt.getD 0
            let s := setBlockCtl s addr.block { s.flash_blocks addr.block with next_block := nb }
            let s := setBlockCtl s nb { s.flash_blocks nb with prev_block := addr.block }
            flash_data_write_loop D fuel s ⟨nb, 0⟩ data
          else
            (st2, s, addr)
        else
          flash_data_write_loop D fuel s addr data
      else
        let s := bumpError s
        let s :=
          if 0 < addr.page then
            setBlockCtl s addr.block { s.flash_blocks addr.block with max_pages := addr.page }
          else
            (flash_free_reclaim D s addr.block).2
        let (st2, nbOpt, s) := flash_free_allocate D s
        if st2 = BPStatus.SUCCESS then
          let nb := nbOpt.getD 0
          let prev := (s.flash_blocks addr.block).prev_block
          let s :=
            if prev ≠ BP_FLASH_INVALID_INDEX then
              setBlockCtl s prev { s.flash_blocks prev with next_block := nb }
            else s
          let s := setBlockCtl s nb { s.flash_blocks nb with prev_block := prev }
          flash_data_write_loop D fuel s ⟨nb, 0⟩ data
        else
          (st2, s, addr)

/-- `flash_data_write`: address validity check, then the page-write loop. -/
def flash_data_write (D : bp_flash_driver_t) (fuel : Nat) (s : FlashGlobals)
    (addr : bp_flash_addr_t) (data : List Nat) : BPStatus × FlashGlobals × bp_flash_addr_t :=
  if (s.flash_blocks addr.block).max_pages ≤ addr.page ∨ D.num_blocks ≤ addr.block then
    (BPStatus.FAILEDSTORE, s, addr)
  else
    flash_data_write_loop D fuel s addr data

/-- The `while` loop of `flash_data_read`.  Returns the bytes successfully
copied into the caller's buffer (partial on failure, as in the C, where the
prefix read so far already sits in the buffer). -/
def flash_data_read_loop (D : bp_flash_driver_t) (fuel : Nat) (s : FlashGlobals)
    (addr : bp_flash_addr_t) (size : Nat) : BPStatus × FlashGlobals × List Nat × bp_flash_addr_t :=
  match fuel with
  | 0 => (BPStatus.FAILEDSTORE, s, [], addr)
  | fuel + 1 =>
    if size = 0 then (BPStatus.SUCCESS, s, [], addr)
    else
      let bytes_to_copy := min size D.page_size
      let st := D.read addr.block addr.page
      if st = BPStatus.SUCCESS then
        let chunk := readPageDev s addr.block addr.page bytes_to_copy
        let size := size - bytes_to_copy
        let addr : bp_flash_addr_t := { addr with page := addr.page + 1 }
        if addr.page = (s.flash_blocks addr.block).max_pages then
          let nb := (s.flash_blocks addr.block).next_block
          if nb = BP_FLASH_INVALID_INDEX then
            (BPStatus.FAILEDSTORE, s, chunk, addr)
          else
            let (st2, s2, rest, addr2) := flash_data_read_loop D fuel s ⟨nb, 0⟩ size
            (st2, s2, chunk ++ rest, addr2)
        else
          let (st2, s2, rest, addr2) := flash_data_read_loop D fuel s addr size
          (st2, s2, chunk ++ rest, addr2)
      else
        (st, bumpError s, [], addr)

/-- `flash_data_read`: address validity check, then the page-read loop. -/
def flash_data_read (D : bp_flash_driver_t) (fuel : Nat) (s : FlashGlobals)
    (addr : bp_flash_addr_t) (size : Nat) : BPStatus × FlashGlobals × List Nat × bp_flash_addr_t :=
  if (s.flash_blocks addr.block).max_pages ≤ addr.page ∨ D.num_blocks ≤ addr.block then
    (BPStatus.FAILEDSTORE, s, [], addr)
  else
    flash_data_read_loop D fuel s addr size

/-- `FLASH_GET_SID`. -/
def FLASH_GET_SID (D : bp_flash_driver_t) (addr : bp_flash_addr_t) : Nat :=
  addr.block * D.pages_per_block + addr.page + 1

/-- `FLASH_GET_BLOCK`. -/
def FLASH_GET_BLOCK (D : bp_flash_driver_t) (sid : Nat) : Nat :=
  (sid - 1) / D.pages_per_block

/-- `FLASH_GET_PAGE`. -/
def FLASH_GET_PAGE (D : bp_flash_driver_t) (sid : Nat) : Nat :=
  (sid - 1) % D.pages_per_block

/-- `bp_object_t`: the header sub-struct handed back to callers. -/
structure bp_object_t where
  handle : Nat
  size : Nat
  sid : Nat
  deriving DecidableEq, Repr

/-- `flash_object_hdr_t`. -/
structure flash_object_hdr_t where
  sync : Nat
  timestamp : Nat
  object : bp_object_t
  deriving DecidableEq, Repr

/-- Little-endian byte encoding of `x` on `w` bytes. -/
def leBytes (w x : Nat) : List Nat :=
  (List.range w).map fun i => x / 256 ^ i % 256

/-- Little-endian value of a byte list. -/
def leVal (bs : List Nat) : Nat :=
  bs.foldr (fun b acc => b + 256 * acc) 0

/-- Byte layout of `flash_object_hdr_t` (little-endian, as fixed by the spec):
sync at 0..7, timestamp at 8..15, handle at 16..19, size at 20..23,
sid at 24..31. -/
def encodeHdr (h : flash_object_hdr_t) : List Nat :=
  leBytes 8 h.sync ++ leBytes 8 h.timestamp ++ leBytes 4 h.object.handle ++
    leBytes 4 h.object.size ++ leBytes 8 h.object.sid

/-- Read a `w`-byte little-endian field at offset `off` of a buffer. -/
def hdrField (bs : List Nat) (off w : Nat) : Nat :=
  leVal ((bs.drop off).take w)

/-- The C's reinterpretation of a buffer prefix as a `flash_object_hdr_t`. -/
def decodeHdr (bs : List Nat) : flash_object_hdr_t :=
  { sync := hdrField bs 0 8, timestamp := hdrField bs 8 8,
    object := { handle := hdrField bs 16 4, size := hdrField bs 20 4,
                sid := hdrField bs 24 8 } }

/-- `flash_store_t` (attributes flattened to their single field). -/
structure flash_store_t where
  in_use : Bool
  max_data_size : Nat
  write_addr : bp_flash_addr_t
  read_addr : bp_flash_addr_t
  write_stage : List Nat
  read_stage : List Nat
  stage_locked : Bool
  object_count : Int

/-- Overwrite `buf` starting at offset `off` with `new` (what copying into the
C stage buffer at that offset does). -/
def spliceAt (buf : List Nat) (off : Nat) (new : List Nat) : List Nat :=
  buf.take off ++ new ++ buf.drop (off + new.length)

/-- `flash_object_write`: capacity check, header assembly into the write
stage, then hand-off to `flash_data_write` at the store's write address.
The C casts the (int) free count to `uint64_t` and multiplies in `uint64_t`,
reproduced here by the reductions mod `2 ^ 64`. -/
def flash_object_write (D : bp_flash_driver_t) (fuel : Nat) (s : FlashGlobals)
    (fs : flash_store_t) (handle : Nat) (data1 data2 : List Nat) (sysnow : Nat) :
    BPStatus × FlashGlobals × flash_store_t :=
  let count64 := (s.flash_free_blocks.count % (2 ^ 64 : Int)).toNat
  let bytes_available := count64 * D.pages_per_block * D.page_size % 2 ^ 64
  let bytes_needed := FLASH_OBJECT_HDR_SIZE + data1.length + data2.length
  if bytes_needed ≤ bytes_available ∧ bytes_needed ≤ fs.max_data_size then
    let sid := FLASH_GET_SID D fs.write_addr
    let hdr : flash_object_hdr_t :=
      { sync := FLASH_OBJECT_SYNC, timestamp := sysnow,
        object := { handle := handle, size := data1.length + data2.length, sid := sid } }
    let stage := encodeHdr hdr ++ data1 ++ data2
    let (st, s, addr) := flash_data_write D fuel s fs.write_addr stage
    (st, s, { fs with write_stage := stage, write_addr := addr })
  else
    (BPStatus.STOREFULL, s, fs)

/-- `flash_object_read`: refuse when the stage is locked; read one page into
the read stage; validate size/handle/sync; read the remainder when the object
spans past the first page; lock the stage and return the borrowed object view
on success.  The returned address is the (possibly advanced) value of the
caller's address variable. -/
def flash_object_read (D : bp_flash_driver_t) (fuel : Nat) (s : FlashGlobals)
    (fs : flash_store_t) (handle : Nat) (addr : bp_flash_addr_t) :
    BPStatus × FlashGlobals × flash_store_t × bp_flash_addr_t × Option bp_object_t :=
  if fs.stage_locked = false then
    let (st, s, out, addr) := flash_data_read D fuel s addr D.page_size
    let fs := { fs with read_stage := spliceAt fs.read_stage 0 out }
    let hdr := decodeHdr fs.read_stage
    if st = BPStatus.SUCCESS then
      if hdr.object.size ≤ fs.max_data_size ∧ hdr.object.handle = handle ∧
          hdr.sync = FLASH_OBJECT_SYNC then
        let bytes_read : Int := (D.page_size : Int) - (FLASH_OBJECT_HDR_SIZE : Int)
        let remaining_bytes : Int := (hdr.object.size : Int) - bytes_read
        if 0 < remaining_bytes then
          let (st2, s2, out2, addr2) := flash_data_read D fuel s addr remaining_bytes.toNat
          let fs := { fs with read_stage := spliceAt fs.read_stage D.page_size out2 }
          if st2 = BPStatus.SUCCESS then
            (BPStatus.SUCCESS, s2, { fs with stage_locked := true }, addr2,
             some (decodeHdr fs.read_stage).object)
          else
            (st2, s2, fs, addr2, none)
        else
          (BPStatus.SUCCESS, s, { fs with stage_locked := true }, addr, some hdr.object)
      else
        (BPStatus.FAILEDSTORE, s, fs, addr, none)
    else
      (st, s, fs, addr, none)
  else
    (BPStatus.FAILEDSTORE, s, fs, addr, none)

/-- `flash_object_scan`: walk pages forward until a page whose first
`sizeof(flash_object_hdr_t)` bytes read back with a matching sync magic, or
until the address goes invalid. -/
def flash_object_scan (D : bp_flash_driver_t) (fuel : Nat) (s : FlashGlobals)
    (addr : bp_flash_addr_t) : BPStatus × FlashGlobals × bp_flash_addr_t :=
  match fuel with
  | 0 => (BPStatus.ERROR, s, addr)
  | fuel + 1 =>
    if addr.block = BP_FLASH_INVALID_INDEX then (BPStatus.ERROR, s, addr)
    else
      let (rst, s, out, addr1) :=
        flash_data_read D (FLASH_OBJECT_HDR_SIZE + 1) s addr FLASH_OBJECT_HDR_SIZE
      if rst = BPStatus.SUCCESS ∧ (decodeHdr out).sync = FLASH_OBJECT_SYNC then
        (BPStatus.SUCCESS, s, addr1)
      else
        let addr2 : bp_flash_addr_t := { addr1 with page := addr1.page + 1 }
        let addr3 : bp_flash_addr_t :=
          if addr2.page = (s.flash_blocks addr2.block).max_pages then
            ⟨(s.flash_blocks addr2.block).next_block, 0⟩
          else addr2
        flash_object_scan D fuel s addr3

/-- Count of clear (`0`) bits in a block's `page_use` bitmap, iterating
`pages_per_block / 8` bytes of 8 bits each, exactly as the counting loop in
`flash_object_delete` does. -/
def countFreePages (D : bp_flash_driver_t) (s : FlashGlobals) (block : Nat) : Nat :=
  ((List.range (D.pages_per_block / 8 * 8)).filter
    fun p => (s.flash_blocks block).page_use p = false).length

/-- Clear the `page_use` bit of page `(block, page)`. -/
def clearPageUse (s : FlashGlobals) (block page : Nat) : FlashGlobals :=
  let ctl := s.flash_blocks block
  setBlockCtl s block { ctl with page_use := fun q => if q = page then false else ctl.page_use q }

/-- The page-deletion `while` loop of `flash_object_delete`.  `current_block`
and `current_block_free_pages` are the loop-carried locals; `bytes_left`
counts down from the object's payload size. -/
def flash_object_delete_loop (D : bp_flash_driver_t) (fuel : Nat) (s : FlashGlobals)
    (addr : bp_flash_addr_t) (current_block : Nat) (current_block_free_pages : Nat)
    (bytes_left : Nat) : BPStatus × FlashGlobals :=
  match fuel with
  | 0 => (BPStatus.FAILEDSTORE, s)
  | fuel + 1 =>
    if bytes_left = 0 then (BPStatus.SUCCESS, s)
    else
      let (current_block, current_block_free_pages) :=
        if current_block ≠ addr.block then (addr.block, countFreePages D s addr.block)
        else (current_block, current_block_free_pages)
      let (s, current_block_free_pages) :=
        if (s.flash_blocks addr.block).page_use addr.page then
          (clearPageUse s addr.block addr.page, current_block_free_pages + 1)
        else (s, current_block_free_pages)
      let bytes_to_delete := min bytes_left D.page_size
      let bytes_left := bytes_left - bytes_to_delete
      let addr : bp_flash_addr_t := { addr with page := addr.page + 1 }
      if addr.page = (s.flash_blocks addr.block).max_pages ∧
          (s.flash_blocks addr.block).next_block = BP_FLASH_INVALID_INDEX then
        (BPStatus.FAILEDSTORE, s)
      else
        let addr : bp_flash_addr_t :=
          if addr.page = (s.flash_blocks addr.block).max_pages then
            ⟨(s.flash_blocks addr.block).next_block, 0⟩
          else addr
        if (s.flash_blocks current_block).max_pages ≤ current_block_free_pages then
          if bytes_left ≠ 0 then (BPStatus.FAILEDSTORE, s)
          else
            let prev := (s.flash_blocks current_block).prev_block
            let next := (s.flash_blocks current_block).next_block
            let s :=
              if prev ≠ BP_FLASH_INVALID_INDEX then
                setBlockCtl s prev { s.flash_blocks prev with next_block := next }
              else s
            let s :=
              if next ≠ BP_FLASH_INVALID_INDEX then
                setBlockCtl s next { s.flash_blocks next with prev_block := prev }
              else s
            let s := (flash_free_reclaim D s current_block).2
            flash_object_delete_loop D fuel s addr current_block current_block_free_pages
              bytes_left
        else
          flash_object_delete_loop D fuel s addr current_block current_block_free_pages
            bytes_left

/-- `flash_object_delete`: translate the SID to an address, validate it, read
back the header and check the SID echo, then clear the `page_use` bit of each
page of the object, reclaiming any block that becomes entirely deleted. -/
def flash_object_delete (D : bp_flash_driver_t) (fuel : Nat) (s : FlashGlobals)
    (sid : Nat) : BPStatus × FlashGlobals :=
  let addr : bp_flash_addr_t := ⟨FLASH_GET_BLOCK D sid, FLASH_GET_PAGE D sid⟩
  if (s.flash_blocks addr.block).max_pages ≤ addr.page ∨ D.num_blocks ≤ addr.block then
    (BPStatus.FAILEDSTORE, s)
  else
    let (st, s, out, _) :=
      flash_data_read D (FLASH_OBJECT_HDR_SIZE + 1) s addr FLASH_OBJECT_HDR_SIZE
    if st ≠ BPStatus.SUCCESS then (st, s)
    else
      let hdr := decodeHdr out
      if hdr.object.sid ≠ sid then (BPStatus.FAILEDSTORE, s)
      else
        flash_object_delete_loop D fuel s addr BP_FLASH_INVALID_INDEX 0 hdr.object.size

/-- One iteration of the `FORMAT` loop of `bplib_store_flash_init`: reclaim
block `b` and count it when the reclaim succeeded. -/
def initFormatStep (D : bp_flash_driver_t) (acc : Int × FlashGlobals) (b : Nat) :
    Int × FlashGlobals :=
  let (st, s') := flash_free_reclaim D acc.2 b
  (if st = BPStatus.SUCCESS then acc.1 + 1 else acc.1, s')

/-- `bplib_store_flash_init` with `FORMAT` mode (`format = true`; `RECOVER`
is the unimplemented no-op).  `s0` supplies the pre-existing device page
contents and the uninitialised (`malloc`-garbage) block-control array.
Returns the number of reclaimed blocks and the initialised state. -/
def bplib_store_flash_init (D : bp_flash_driver_t) (s0 : FlashGlobals) (format : Bool) :
    Int × FlashGlobals :=
  let emptyList : flash_block_list_t :=
    ⟨BP_FLASH_INVALID_INDEX, BP_FLASH_INVALID_INDEX, 0⟩
  let s := { s0 with flash_free_blocks := emptyList, flash_bad_blocks := emptyList }
  let (n, s) :=
    if format then (List.range D.num_blocks).foldl (initFormatStep D) (0, s)
    else ((0 : Int), s)
  (n, { s with flash_error_count := 0, flash_used_block_count := 0 })

/-- `bplib_store_flash_enqueue` for one store (the handle is the value written
into the header). -/
def bplib_store_flash_enqueue (D : bp_flash_driver_t) (fuel : Nat) (s : FlashGlobals)
    (fs : flash_store_t) (handle : Nat) (data1 data2 : List Nat) (sysnow : Nat) :
    BPStatus × FlashGlobals × flash_store_t :=
  if fs.write_addr.block = BP_FLASH_INVALID_INDEX then
    let (st, nbOpt, s) := flash_free_allocate D s
    if st ≠ BPStatus.SUCCESS then (BPStatus.FAILEDSTORE, s, fs)
    else
      let fs := { fs with write_addr := { fs.write_addr with block := nbOpt.getD 0 } }
      let fs := if fs.read_addr.block = BP_FLASH_INVALID_INDEX then
          { fs with read_addr := fs.write_addr } else fs
      let (st, s, fs) := flash_object_write D fuel s fs handle data1 data2 sysnow
      if st = BPStatus.SUCCESS then (st, s, { fs with object_count := fs.object_count + 1 })
      else (st, s, fs)
  else
    let fs := if fs.read_addr.block = BP_FLASH_INVALID_INDEX then
        { fs with read_addr := fs.write_addr } else fs
    let (st, s, fs) := flash_object_write D fuel s fs handle data1 data2 sysnow
    if st = BPStatus.SUCCESS then (st, s, { fs with object_count := fs.object_count + 1 })
    else (st, s, fs)

/-- `bplib_store_flash_dequeue`: empty queue returns `TIMEOUT`; otherwise read
at the store's read address, and on failure scan forward for the next sync
while still returning the failure. -/
def bplib_store_flash_dequeue (D : bp_flash_driver_t) (fuel : Nat) (s : FlashGlobals)
    (fs : flash_store_t) (handle : Nat) :
    BPStatus × FlashGlobals × flash_store_t × Option bp_object_t :=
  if fs.read_addr.block ≠ fs.write_addr.block ∨ fs.read_addr.page ≠ fs.write_addr.page then
    let (st, s, fs, addr, obj) := flash_object_read D fuel s fs handle fs.read_addr
    let fs := { fs with read_addr := addr }
    if st ≠ BPStatus.SUCCESS then
      let (_, s, addr2) := flash_object_scan D fuel s fs.read_addr
      (st, s, { fs with read_addr := addr2 }, obj)
    else
      (st, s, fs, obj)
  else
    (BPStatus.TIMEOUT, s, fs, none)

/-- `bplib_store_flash_retrieve`: read at the SID's address through a local
copy, leaving the store's read cursor untouched. -/
def bplib_store_flash_retrieve (D : bp_flash_driver_t) (fuel : Nat) (s : FlashGlobals)
    (fs : flash_store_t) (handle : Nat) (sid : Nat) :
    BPStatus × FlashGlobals × flash_store_t × Option bp_object_t :=
  let page_addr : bp_flash_addr_t := ⟨FLASH_GET_BLOCK D sid, FLASH_GET_PAGE D sid⟩
  let (st, s, fs, _, obj) := flash_object_read D fuel s fs handle page_addr
  (st, s, fs, obj)

/-- `bplib_store_flash_release`: unlock the read stage iff the requested SID
matches the SID of the header currently sitting in the read stage. -/
def bplib_store_flash_release (fs : flash_store_t) (sid : Nat) :
    BPStatus × flash_store_t :=
  if (decodeHdr fs.read_stage).object.sid ≠ sid then (BPStatus.FAILEDSTORE, fs)
  else (BPStatus.SUCCESS, { fs with stage_locked := false })

/-- `bplib_store_flash_relinquish`: delete the object's pages; decrement the
object count on success. -/
def bplib_store_flash_relinquish (D : bp_flash_driver_t) (fuel : Nat) (s : FlashGlobals)
    (fs : flash_store_t) (sid : Nat) : BPStatus × FlashGlobals × flash_store_t :=
  let (st, s) := flash_object_delete D fuel s sid
  if st = BPStatus.SUCCESS then (st, s, { fs with object_count := fs.object_count - 1 })
  else (st, s, fs)

/-- `bplib_store_flash_getcount`. -/
def bplib_store_flash_getcount (fs : flash_store_t) : Int :=
  fs.object_count

/-! ### Shared concrete instances used by witnesses and counterexamples -/

/-- A driver whose every device operation reports success. -/
def idealDriver (nb ppb ps : Nat) : bp_flash_driver_t :=
  { num_blocks := nb, pages_per_block := ppb, page_size := ps,
    read := fun _ _ => .SUCCESS, write := fun _ _ => .SUCCESS,
    erase := fun _ => .SUCCESS, isbad := fun _ => false }

/-- An arbitrary pre-`init` state (uninitialised control array, zeroed device). -/
def zeroGlobals : FlashGlobals :=
  { flash_blocks := fun _ => ⟨0, 0, 0, fun _ => true⟩,
    flash_free_blocks := ⟨0, 0, 0⟩, flash_bad_blocks := ⟨0, 0, 0⟩,
    flash_error_count := 0, flash_used_block_count := 0,
    pages := fun _ _ _ => 0 }

/-- A store as `bplib_store_flash_create` leaves it (cursors invalid, stage
unlocked, zero objects), with the given (header-inclusive) `max_data_size`. -/
def freshStore (mds : Nat) : flash_store_t :=
  { in_use := true, max_data_size := mds,
    write_addr := ⟨BP_FLASH_INVALID_INDEX, 0⟩, read_addr := ⟨BP_FLASH_INVALID_INDEX, 0⟩,
    write_stage := [], read_stage := List.replicate mds 0,
    stage_locked := false, object_count := 0 }

/-! ### Little-endian encode/decode lemmas -/

theorem leBytes_length (w x : Nat) : (leBytes w x).length = w := by
  simp [leBytes]

theorem leBytes_lt (w x : Nat) : ∀ b ∈ leBytes w x, b < 256 := by
  intro b hb
  simp only [leBytes, List.mem_map] at hb
  obtain ⟨i, _, rfl⟩ := hb
  exact Nat.mod_lt _ (by norm_num)

theorem leVal_leBytes (w x : Nat) (hx : x < 256 ^ w) : leVal (leBytes w x) = x := by
  induction w generalizing x with
  | zero => simp at hx; simp [leBytes, leVal, hx]
  | succ w ih =>
    have h1 : leBytes (w + 1) x = x % 256 :: leBytes w (x / 256) := by
      simp only [leBytes, List.range_succ_eq_map, List.map_cons, List.map_map]
      refine congrArg₂ List.cons (by simp) ?_
      refine List.map_congr_left fun i _ => ?_
      simp only [Function.comp_apply]
      rw [Nat.div_div_eq_div_mul, mul_comm, ← pow_succ]
    rw [h1]
    simp only [leVal, List.foldr_cons]
    have hx' : x / 256 < 256 ^ w := by
      rw [Nat.div_lt_iff_lt_mul (by norm_num)]
      calc x < 256 ^ (w + 1) := hx
        _ = 256 ^ w * 256 := by ring
    have := ih (x / 256) hx'
    simp only [leVal] at this
    rw [this]
    omega

theorem encodeHdr_length (h : flash_object_hdr_t) :
    (encodeHdr h).length = FLASH_OBJECT_HDR_SIZE := by
  simp [encodeHdr, leBytes_length, FLASH_OBJECT_HDR_SIZE]

theorem encodeHdr_lt (h : flash_object_hdr_t) : ∀ b ∈ encodeHdr h, b < 256 := by
  intro b hb
  simp only [encodeHdr, List.mem_append] at hb
  rcases hb with ((((h1 | h2) | h3) | h4) | h5)
  · exact leBytes_lt _ _ _ h1
  · exact leBytes_lt _ _ _ h2
  · exact leBytes_lt _ _ _ h3
  · exact leBytes_lt _ _ _ h4
  · exact leBytes_lt _ _ _ h5

/-- Decoding depends only on the first 32 bytes of the buffer. -/
theorem decodeHdr_of_take (bs bs' : List Nat)
    (h : bs.take FLASH_OBJECT_HDR_SIZE = bs'.take FLASH_OBJECT_HDR_SIZE) :
    decodeHdr bs = decodeHdr bs' := by
  have key : ∀ off w, off + w ≤ 32 →
      (bs.drop off).take w = (bs'.drop off).take w := by
    intro off w how
    have h1 : ((bs.take 32).drop off).take w = ((bs'.take 32).drop off).take w := by
      rw [show (32 : Nat) = FLASH_OBJECT_HDR_SIZE from rfl, h]
    have e : ∀ l : List Nat, ((l.take 32).drop off).take w = (l.drop off).take w := by
      intro l
      rw [List.drop_take, List.take_take]
      congr 1
      omega
    rwa [e bs, e bs'] at h1
  simp only [decodeHdr, hdrField]
  rw [key 0 8 (by omega), key 8 8 (by omega), key 16 4 (by omega),
    key 20 4 (by omega), key 24 8 (by omega)]

theorem drop_append_len (a x : List Nat) (n m : Nat) (h : a.length = n) :
    (a ++ x).drop (n + m) = x.drop m := by
  subst h
  rw [List.drop_append]

theorem take_append_len (a x : List Nat) (n : Nat) (h : a.length = n) :
    (a ++ x).take n = a := by
  subst h
  exact List.take_left a x

/-- Decoding the encoded header recovers it when the fields are within the
widths of the on-disk layout. -/
theorem decodeHdr_encodeHdr (h : flash_object_hdr_t) (rest : List Nat)
    (hsync : h.sync < 2 ^ 64) (hts : h.timestamp < 2 ^ 64)
    (hhandle : h.object.handle < 2 ^ 32) (hsize : h.object.size < 2 ^ 32)
    (hsid : h.object.sid < 2 ^ 64) :
    decodeHdr (encodeHdr h ++ rest) = h := by
  have e256 : (256 : Nat) ^ 8 = 2 ^ 64 := by norm_num
  have e256' : (256 : Nat) ^ 4 = 2 ^ 32 := by norm_num
  have assoc : encodeHdr h ++ rest = leBytes 8 h.sync ++ (leBytes 8 h.timestamp ++
      (leBytes 4 h.object.handle ++ (leBytes 4 h.object.size ++
        (leBytes 8 h.object.sid ++ rest)))) := by
    simp [encodeHdr, List.append_assoc]
  have d8 : (encodeHdr h ++ rest).drop 8 = leBytes 8 h.timestamp ++
      (leBytes 4 h.object.handle ++ (leBytes 4 h.object.size ++
        (leBytes 8 h.object.sid ++ rest))) := by
    rw [assoc, show (8 : Nat) = 8 + 0 by norm_num,
      drop_append_len _ _ 8 0 (leBytes_length 8 _), List.drop_zero]
  have d16 : (encodeHdr h ++ rest).drop 16 = leBytes 4 h.object.handle ++
      (leBytes 4 h.object.size ++ (leBytes 8 h.object.sid ++ rest)) := by
    rw [assoc, show (16 : Nat) = 8 + 8 by norm_num,
      drop_append_len _ _ 8 8 (leBytes_length 8 _),
      show (8 : Nat) = 8 + 0 by norm_num,
      drop_append_len _ _ 8 0 (leBytes_length 8 _), List.drop_zero]
  have d20 : (encodeHdr h ++ rest).drop 20 = leBytes 4 h.object.size ++
      (leBytes 8 h.object.sid ++ rest) := by
    rw [assoc, show (20 : Nat) = 8 + 12 by norm_num,
      drop_append_len _ _ 8 12 (leBytes_length 8 _),
      show (12 : Nat) = 8 + 4 by norm_num,
      drop_append_len _ _ 8 4 (leBytes_length 8 _),
      show (4 : Nat) = 4 + 0 by norm_num,
      drop_append_len _ _ 4 0 (leBytes_length 4 _), List.drop_zero]
  have d24 : (encodeHdr h ++ rest).drop 24 = leBytes 8 h.object.sid ++ rest := by
    rw [assoc, show (24 : Nat) = 8 + 16 by norm_num,
      drop_append_len _ _ 8 16 (leBytes_length 8 _),
      show (16 : Nat) = 8 + 8 by norm_num,
      drop_append_len _ _ 8 8 (leBytes_length 8 _),
      show (8 : Nat) = 4 + 4 by norm_num,
      drop_append_len _ _ 4 4 (leBytes_length 4 _),
      show (4 : Nat) = 4 + 0 by norm_num,
      drop_append_len _ _ 4 0 (leBytes_length 4 _), List.drop_zero]
  simp only [decodeHdr, hdrField, List.drop_zero, d8, d16, d20, d24]
  rw [assoc]
  rw [take_append_len _ _ 8 (leBytes_length 8 _), take_append_len _ _ 8 (leBytes_length 8 _),
    take_append_len _ _ 4 (leBytes_length 4 _), take_append_len _ _ 4 (leBytes_length 4 _),
    take_append_len _ _ 8 (leBytes_length 8 _)]
  rw [leVal_leBytes 8 _ (by rw [e256]; exact hsync),
    leVal_leBytes 8 _ (by rw [e256]; exact hts),
    leVal_leBytes 4 _ (by rw [e256']; exact hhandle),
    leVal_leBytes 4 _ (by rw [e256']; exact hsize),
    leVal_leBytes 8 _ (by rw [e256]; exact hsid)]

/-! ### SID arithmetic -/

theorem sid_decode (D : bp_flash_driver_t) (b p : Nat) (hp : p < D.pages_per_block) :
    FLASH_GET_BLOCK D (FLASH_GET_SID D ⟨b, p⟩) = b ∧
    FLASH_GET_PAGE D (FLASH_GET_SID D ⟨b, p⟩) = p := by
  have hppb : 0 < D.pages_per_block := by omega
  unfold FLASH_GET_SID FLASH_GET_BLOCK FLASH_GET_PAGE
  simp only
  constructor
  · rw [Nat.add_sub_cancel, mul_comm, Nat.mul_add_div hppb, Nat.div_eq_of_lt hp,
      Nat.add_zero]
  · rw [Nat.add_sub_cancel, mul_comm, Nat.mul_add_mod, Nat.mod_eq_of_lt hp]

/-- C6: SID encoding round-trip: for every address (block, page) with
block < num_blocks and page < pages_per_block, encoding it as
SID = block * pages_per_block + page + 1 and decoding via
block = (SID-1) / pages_per_block and page = (SID-1) mod pages_per_block
yields the original pair; and every SID produced by the encoding is at
least 1. -/
theorem sid_roundtrip (D : bp_flash_driver_t) (a : bp_flash_addr_t)
    (hb : a.block < D.num_blocks) (hp : a.page < D.pages_per_block) :
    FLASH_GET_BLOCK D (FLASH_GET_SID D a) = a.block ∧
    FLASH_GET_PAGE D (FLASH_GET_SID D a) = a.page ∧
    1 ≤ FLASH_GET_SID D a := by
  obtain ⟨b, p⟩ := a
  obtain ⟨h1, h2⟩ := sid_decode D b p hp
  exact ⟨h1, h2, by unfold FLASH_GET_SID; omega⟩

/-- C6 witness: the round-trip at a concrete driver and address. -/
theorem sid_roundtrip_witness :
    FLASH_GET_BLOCK (idealDriver 2 8 40) (FLASH_GET_SID (idealDriver 2 8 40) ⟨1, 3⟩) = 1 ∧
    FLASH_GET_PAGE (idealDriver 2 8 40) (FLASH_GET_SID (idealDriver 2 8 40) ⟨1, 3⟩) = 3 ∧
    1 ≤ FLASH_GET_SID (idealDriver 2 8 40) ⟨1, 3⟩ :=
  sid_roundtrip (idealDriver 2 8 40) ⟨1, 3⟩ (by decide) (by decide)

/-! ### Dequeue on an empty store -/

/-- C7: for every store whose read_addr equals its write_addr (empty queue),
dequeue returns TIMEOUT, does not read the device, and leaves the read stage
buffer, the stage_locked flag, and both cursors unchanged (the returned state
and store are exactly the input state and store). -/
theorem dequeue_empty_timeout (D : bp_flash_driver_t) (fuel : Nat) (s : FlashGlobals)
    (fs : flash_store_t) (handle : Nat) (h : fs.read_addr = fs.write_addr) :
    bplib_store_flash_dequeue D fuel s fs handle = (BPStatus.TIMEOUT, s, fs, none) := by
  unfold bplib_store_flash_dequeue
  rw [h]
  simp

/-- C7 witness: empty dequeue at a concrete store. -/
theorem dequeue_empty_timeout_witness :
    bplib_store_flash_dequeue (idealDriver 2 8 40) 10 zeroGlobals (freshStore 72) 0 =
      (BPStatus.TIMEOUT, zeroGlobals, freshStore 72, none) :=
  dequeue_empty_timeout (idealDriver 2 8 40) 10 zeroGlobals (freshStore 72) 0 rfl

/-! ### Release SID check -/

/-- C8: for every store whose read stage is locked, release with a SID
different from the SID in the header currently held in read_stage returns
FAILED_STORE and leaves stage_locked true; release with the matching SID sets
stage_locked to false and returns success. -/
theorem release_sid_check (fs : flash_store_t) (sid : Nat)
    (hlock : fs.stage_locked = true) :
    ((decodeHdr fs.read_stage).object.sid ≠ sid →
      bplib_store_flash_release fs sid = (BPStatus.FAILEDSTORE, fs) ∧
        (bplib_store_flash_release fs sid).2.stage_locked = true) ∧
    ((decodeHdr fs.read_stage).object.sid = sid →
      (bplib_store_flash_release fs sid).1 = BPStatus.SUCCESS ∧
        (bplib_store_flash_release fs sid).2.stage_locked = false) := by
  unfold bplib_store_flash_release
  constructor
  · intro hne
    rw [if_pos hne]
    exact ⟨rfl, hlock⟩
  · intro heq
    rw [if_neg (by simp [heq])]
    exact ⟨rfl, rfl⟩

/-- A locked store whose read stage holds a header with SID 5. -/
def lockedStore : flash_store_t :=
  { freshStore 72 with
      stage_locked := true
      read_stage := encodeHdr ⟨FLASH_OBJECT_SYNC, 0, ⟨0, 3, 5⟩⟩ }

/-- C8 witness: mismatched release (SID 7) fails locked; matching release
(SID 5) succeeds and unlocks. -/
theorem release_sid_check_witness :
    (bplib_store_flash_release lockedStore 7 = (BPStatus.FAILEDSTORE, lockedStore) ∧
      (bplib_store_flash_release lockedStore 7).2.stage_locked = true) ∧
    ((bplib_store_flash_release lockedStore 5).1 = BPStatus.SUCCESS ∧
      (bplib_store_flash_release lockedStore 5).2.stage_locked = false) :=
  ⟨(release_sid_check lockedStore 7 rfl).1 (by decide),
   (release_sid_check lockedStore 5 rfl).2 (by decide)⟩

/-! ### Enqueue on an exhausted or undersized store -/

/-- C4 (amended): whenever the store's write and read cursors are already
established (both block indices valid) and the capacity check fails — the
free-page capacity or max_data_size is insufficient for header plus payload —
enqueue returns STORE_FULL and leaves the entire state and store (in
particular write_addr and read_addr) unchanged. -/
theorem enqueue_insufficient_storefull (D : bp_flash_driver_t) (fuel : Nat)
    (s : FlashGlobals) (fs : flash_store_t) (handle : Nat) (d1 d2 : List Nat) (sysnow : Nat)
    (hw : fs.write_addr.block ≠ BP_FLASH_INVALID_INDEX)
    (hr : fs.read_addr.block ≠ BP_FLASH_INVALID_INDEX)
    (hfull : ¬(FLASH_OBJECT_HDR_SIZE + d1.length + d2.length ≤
        (s.flash_free_blocks.count % (2 ^ 64 : Int)).toNat * D.pages_per_block *
          D.page_size % 2 ^ 64 ∧
      FLASH_OBJECT_HDR_SIZE + d1.length + d2.length ≤ fs.max_data_size)) :
    bplib_store_flash_enqueue D fuel s fs handle d1 d2 sysnow =
      (BPStatus.STOREFULL, s, fs) := by
  unfold bplib_store_flash_enqueue flash_object_write
  simp only [if_neg hw, if_neg hr, if_neg hfull]
  simp

/-- A store with established cursors but an undersized max_data_size. -/
def tinyStore : flash_store_t :=
  { freshStore 10 with write_addr := ⟨0, 0⟩, read_addr := ⟨0, 0⟩ }

/-- C4 witness: an enqueue needing 34 bytes against max_data_size 10 and an
empty free list returns STORE_FULL without touching anything. -/
theorem enqueue_insufficient_storefull_witness :
    bplib_store_flash_enqueue (idealDriver 2 8 40) 10 zeroGlobals tinyStore 0 [1, 2] [] 0 =
      (BPStatus.STOREFULL, zeroGlobals, tinyStore) :=
  enqueue_insufficient_storefull (idealDriver 2 8 40) 10 zeroGlobals tinyStore 0 [1, 2] [] 0
    (by decide) (by decide) (by decide)

/-- The one-block driver used for the C4 counterexample. -/
def oneBlockDriver : bp_flash_driver_t := idealDriver 1 8 40

/-- The post-format state of the one-block device. -/
def oneBlockFormatted : FlashGlobals :=
  (bplib_store_flash_init oneBlockDriver zeroGlobals true).2

/-- C4 counterexample: on a fresh store (write cursor not yet established)
with one free block and an undersized max_data_size, enqueue returns
STORE_FULL yet mutates write_addr (it allocates and installs a first write
block before the capacity check runs), refuting the claim that a STORE_FULL
enqueue never mutates the cursors. -/
theorem enqueue_storefull_mutates_cursor :
    (bplib_store_flash_enqueue oneBlockDriver 100 oneBlockFormatted (freshStore 10)
        0 [1, 2] [] 0).1 = BPStatus.STOREFULL ∧
    (bplib_store_flash_enqueue oneBlockDriver 100 oneBlockFormatted (freshStore 10)
        0 [1, 2] [] 0).2.2.write_addr.block ≠ (freshStore 10).write_addr.block := by
  exact ⟨rfl, by decide⟩

/-! ### The write-failure bridging slip (data_write at page > 0) -/

/-- Forward traversal of `next_block` links from a starting block. -/
def forwardChain (s : FlashGlobals) : Nat → Nat → List Nat
  | 0, _ => []
  | fuel + 1, b =>
    if b = BP_FLASH_INVALID_INDEX then []
    else b :: forwardChain s fuel (s.flash_blocks b).next_block

/-- A driver whose page writes fail exactly at block 1, page 1. -/
def failAt11Driver : bp_flash_driver_t :=
  { idealDriver 4 4 8 with
    write := fun b p => if b = 1 ∧ p = 1 then .ERROR else .SUCCESS }

/-- A state whose used chain is block 0 → block 1 (block 1 the write tail,
its page 0 already written) with blocks 2, 3 free. -/
def chain01State : FlashGlobals :=
  { flash_blocks := fun j =>
      if j = 0 then ⟨1, BP_FLASH_INVALID_INDEX, 4, fun _ => true⟩
      else if j = 1 then ⟨BP_FLASH_INVALID_INDEX, 0, 4, fun _ => true⟩
      else if j = 2 then ⟨3, BP_FLASH_INVALID_INDEX, 4, fun _ => true⟩
      else ⟨BP_FLASH_INVALID_INDEX, 2, 4, fun _ => true⟩,
    flash_free_blocks := ⟨2, 3, 2⟩,
    flash_bad_blocks := ⟨BP_FLASH_INVALID_INDEX, BP_FLASH_INVALID_INDEX, 0⟩,
    flash_error_count := 0, flash_used_block_count := 2,
    pages := fun _ _ _ => 0 }

/-- C2: evaluation of `flash_data_write` at the failing input.  The write
fails at page 1 of block 1; the code sets the block's max_pages to 1 as the
claim says, but then redirects the previous block's next_block to the
replacement (block 2), so block 1 — and with it the already-written prefix —
is no longer reachable by forward (next_block) traversal from the earlier
blocks of the chain: the claim's reachability conclusion fails on the code. -/
theorem data_write_failure_bridges_around_truncated_block :
    (flash_data_write failAt11Driver 100 chain01State ⟨1, 1⟩ [9, 9, 9, 9, 9]).1 =
      BPStatus.SUCCESS ∧
    ((flash_data_write failAt11Driver 100 chain01State ⟨1, 1⟩
        [9, 9, 9, 9, 9]).2.1.flash_blocks 1).max_pages = 1 ∧
    ((flash_data_write failAt11Driver 100 chain01State ⟨1, 1⟩
        [9, 9, 9, 9, 9]).2.1.flash_blocks 0).next_block = 2 ∧
    ((flash_data_write failAt11Driver 100 chain01State ⟨1, 1⟩
        [9, 9, 9, 9, 9]).2.1.flash_blocks 1).next_block = BP_FLASH_INVALID_INDEX ∧
    1 ∉ forwardChain (flash_data_write failAt11Driver 100 chain01State ⟨1, 1⟩
        [9, 9, 9, 9, 9]).2.1 4 0 := by
  exact ⟨rfl, rfl, rfl, rfl, by decide⟩

/-! ### Reads ending exactly at a block boundary -/

theorem readPageDev_length (s : FlashGlobals) (b p n : Nat) :
    (readPageDev s b p n).length = n := by
  simp [readPageDev]

/-- The bytes `flash_data_read` copies when asked for `size` bytes starting
at page `p` of block `b`: page-sized chunks, the last one truncated. -/
def pageChunks (D : bp_flash_driver_t) (s : FlashGlobals) (b p size m : Nat) : List Nat :=
  ((List.range m).map fun j =>
    readPageDev s b (p + j) (min (size - j * D.page_size) D.page_size)).flatten

theorem pageChunks_one (D : bp_flash_driver_t) (s : FlashGlobals) (b p size : Nat) :
    pageChunks D s b p size 1 = readPageDev s b p (min size D.page_size) := by
  simp [pageChunks, show List.range 1 = [0] from by decide]

theorem pageChunks_succ (D : bp_flash_driver_t) (s : FlashGlobals) (b p size m : Nat)
    (hsz : D.page_size ≤ size) :
    pageChunks D s b p size (m + 1) =
      readPageDev s b p D.page_size ++ pageChunks D s b (p + 1) (size - D.page_size) m := by
  unfold pageChunks
  rw [List.range_succ_eq_map]
  simp only [List.map_cons, List.flatten_cons, List.map_map]
  congr 1
  · simp [Nat.min_eq_right hsz]
  · refine congrArg List.flatten (List.map_congr_left fun j _ => ?_)
    simp only [Function.comp_apply]
    congr 1
    · omega
    · congr 1
      have e1 : Nat.succ j * D.page_size = j * D.page_size + D.page_size :=
        Nat.succ_mul j D.page_size
      omega

theorem data_read_loop_boundary (D : bp_flash_driver_t) (s : FlashGlobals) (b : Nat)
    (hps : 0 < D.page_size) (hreads : ∀ q, D.read b q = BPStatus.SUCCESS)
    (hnext : (s.flash_blocks b).next_block = BP_FLASH_INVALID_INDEX) :
    ∀ m p size fuel, 0 < m →
      (s.flash_blocks b).max_pages = p + m →
      (m - 1) * D.page_size < size → size ≤ m * D.page_size →
      m ≤ fuel →
      flash_data_read_loop D fuel s ⟨b, p⟩ size =
        (BPStatus.FAILEDSTORE, s, pageChunks D s b p size m, ⟨b, p + m⟩) ∧
      (pageChunks D s b p size m).length = size := by
  intro m
  induction m with
  | zero => omega
  | succ m' ih =>
    intro p size fuel _ hmp hlo hhi hfuel
    rw [Nat.add_sub_cancel] at hlo
    obtain ⟨f, rfl⟩ : ∃ f, fuel = f + 1 := ⟨fuel - 1, by omega⟩
    have hsize0 : size ≠ 0 := by omega
    rcases Nat.eq_zero_or_pos m' with hm' | hm'
    · -- final page: the chunk lands exactly on max_pages and next is invalid
      subst hm'
      have hle : size ≤ D.page_size := by
        have e : (0 + 1) * D.page_size = D.page_size := by ring
        omega
      have hmin : min size D.page_size = size := Nat.min_eq_left hle
      simp only [flash_data_read_loop]
      rw [if_neg hsize0]
      simp only [hreads, hmin, if_true]
      rw [if_pos (show p + 1 = (s.flash_blocks b).max_pages by omega), if_pos hnext]
      refine ⟨?_, ?_⟩
      · rw [pageChunks_one, hmin]
      · rw [pageChunks_one, hmin, readPageDev_length]
    · -- full page, recurse within the same block
      have hpsle : D.page_size ≤ size := by
        have h1 : D.page_size ≤ m' * D.page_size := Nat.le_mul_of_pos_left _ hm'
        omega
      have hmin : min size D.page_size = D.page_size := Nat.min_eq_right hpsle
      simp only [flash_data_read_loop]
      rw [if_neg hsize0]
      simp only [hreads, hmin, if_true]
      rw [if_neg (show ¬(p + 1 = (s.flash_blocks b).max_pages) by omega)]
      have ihr := ih (p + 1) (size - D.page_size) f hm' (by omega)
        (by
          have e1 : (m' - 1) * D.page_size = m' * D.page_size - D.page_size :=
            Nat.sub_one_mul _ _
          have h1 : D.page_size ≤ m' * D.page_size := Nat.le_mul_of_pos_left _ hm'
          omega)
        (by
          have e1 : (m' + 1) * D.page_size = m' * D.page_size + D.page_size := by ring
          omega)
        (by omega)
      rw [ihr.1]
      dsimp only
      refine ⟨?_, ?_⟩
      · rw [pageChunks_succ D s b p size m' hpsle,
          show p + 1 + m' = p + (m' + 1) by omega]
      · rw [pageChunks_succ D s b p size m' hpsle, List.length_append,
          readPageDev_length, ihr.2]
        omega

/-- C10: if data_read is asked for a byte count whose final page read lands
exactly on the last usable page of a block (addr.page reaches max_pages just
as bytes_left reaches 0) and that block's next_block is the invalid sentinel,
data_read returns FAILED_STORE even though every requested byte was
successfully read into the buffer (the returned buffer holds all `size`
requested bytes); success therefore requires a successor block whenever the
read ends on a block boundary. -/
theorem data_read_block_end_failure (D : bp_flash_driver_t) (fuel : Nat)
    (s : FlashGlobals) (a : bp_flash_addr_t) (size m : Nat)
    (hps : 0 < D.page_size) (hb : a.block < D.num_blocks)
    (hreads : ∀ q, D.read a.block q = BPStatus.SUCCESS)
    (hm : 0 < m) (hmp : (s.flash_blocks a.block).max_pages = a.page + m)
    (hnext : (s.flash_blocks a.block).next_block = BP_FLASH_INVALID_INDEX)
    (hlo : (m - 1) * D.page_size < size) (hhi : size ≤ m * D.page_size)
    (hfuel : m ≤ fuel) :
    flash_data_read D fuel s a size =
      (BPStatus.FAILEDSTORE, s, pageChunks D s a.block a.page size m,
        ⟨a.block, a.page + m⟩) ∧
    (pageChunks D s a.block a.page size m).length = size := by
  obtain ⟨b, p⟩ := a
  unfold flash_data_read
  rw [if_neg (by simp only [hmp] at *; omega)]
  exact data_read_loop_boundary D s b hps hreads hnext m p size fuel hm hmp hlo hhi hfuel

/-- A state with no successor links anywhere and constant device bytes. -/
def noNextState : FlashGlobals :=
  { flash_blocks := fun _ =>
      ⟨BP_FLASH_INVALID_INDEX, BP_FLASH_INVALID_INDEX, 8, fun _ => true⟩,
    flash_free_blocks := ⟨BP_FLASH_INVALID_INDEX, BP_FLASH_INVALID_INDEX, 0⟩,
    flash_bad_blocks := ⟨BP_FLASH_INVALID_INDEX, BP_FLASH_INVALID_INDEX, 0⟩,
    flash_error_count := 0, flash_used_block_count := 0,
    pages := fun _ _ _ => 5 }

/-- C10 witness: an 80-byte read from page 6 of an 8-page block with no
successor fails with FAILED_STORE after reading all 80 bytes. -/
theorem data_read_block_end_failure_witness :
    flash_data_read (idealDriver 2 8 40) 100 noNextState ⟨0, 6⟩ 80 =
      (BPStatus.FAILEDSTORE, noNextState,
        pageChunks (idealDriver 2 8 40) noNextState 0 6 80 2, ⟨0, 8⟩) ∧
    (pageChunks (idealDriver 2 8 40) noNextState 0 6 80 2).length = 80 :=
  data_read_block_end_failure (idealDriver 2 8 40) 100 noNextState ⟨0, 6⟩ 80 2
    (by decide) (by decide) (fun _ => rfl) (by decide) rfl rfl
    (by decide) (by decide) (by decide)

/-! ### Block-count conservation -/

/-- The quantity of invariant (I2): free count + bad count + used count. -/
def csum (s : FlashGlobals) : Int :=
  s.flash_free_blocks.count + s.flash_bad_blocks.count + s.flash_used_block_count

/-- Invariant (I2) itself. -/
def SumInv (D : bp_flash_driver_t) (s : FlashGlobals) : Prop :=
  csum s = (D.num_blocks : Int)

theorem csum_list_add (s : FlashGlobals) (w : WhichList) (b : Nat) :
    csum (flash_block_list_add s w b) = csum s + 1 := by
  cases w <;>
    · unfold flash_block_list_add getList setList csum
      dsimp only
      split <;> (dsimp only; ring)

theorem used_list_add (s : FlashGlobals) (w : WhichList) (b : Nat) :
    (flash_block_list_add s w b).flash_used_block_count = s.flash_used_block_count := by
  cases w <;>
    · unfold flash_block_list_add getList setList
      dsimp only
      split <;> rfl

theorem csum_reclaim (D : bp_flash_driver_t) (s : FlashGlobals) (b : Nat) :
    csum (flash_free_reclaim D s b).2 = csum s := by
  unfold flash_free_reclaim
  dsimp only
  split <;>
    · rw [csum_list_add]
      unfold csum
      dsimp only
      ring

theorem used_reclaim (D : bp_flash_driver_t) (s : FlashGlobals) (b : Nat) :
    (flash_free_reclaim D s b).2.flash_used_block_count = s.flash_used_block_count - 1 := by
  unfold flash_free_reclaim
  dsimp only
  split <;> rw [used_list_add]

theorem csum_alloc_loop (D : bp_flash_driver_t) :
    ∀ fuel st bo s, csum (flash_free_allocate_loop D fuel st bo s).2.2 = csum s := by
  intro fuel
  induction fuel with
  | zero => intro st bo s; rfl
  | succ f ih =>
    intro st bo s
    unfold flash_free_allocate_loop
    dsimp only
    split
    · rfl
    · split
      · rw [ih]
        unfold csum eraseDevice
        dsimp only
        ring
      · rw [ih]
        have h := csum_list_add
          { s with flash_error_count := s.flash_error_count + 1 } .bad s.flash_free_blocks.out
        unfold csum at h ⊢
        dsimp only at h ⊢
        omega

theorem csum_alloc (D : bp_flash_driver_t) (s : FlashGlobals) :
    csum (flash_free_allocate D s).2.2 = csum s :=
  csum_alloc_loop D _ _ _ s

theorem csum_setBlockCtl (s : FlashGlobals) (i : Nat) (ctl : flash_block_control_t) :
    csum (setBlockCtl s i ctl) = csum s := rfl

theorem csum_bumpError (s : FlashGlobals) : csum (bumpError s) = csum s := rfl

theorem csum_writePageDev (s : FlashGlobals) (a : bp_flash_addr_t) (bytes : List Nat) :
    csum (writePageDev s a bytes) = csum s := rfl

theorem csum_clearPageUse (s : FlashGlobals) (b p : Nat) :
    csum (clearPageUse s b p) = csum s := rfl

theorem csum_write_loop (D : bp_flash_driver_t) :
    ∀ fuel s addr data, csum (flash_data_write_loop D fuel s addr data).2.1 = csum s := by
  intro fuel
  induction fuel with
  | zero => intro s addr data; rfl
  | succ f ih =>
    intro s addr data
    unfold flash_data_write_loop
    dsimp only
    split
    · rfl
    · split
      · -- page write succeeded
        split
        · -- block boundary: allocate and chain
          split
          · rw [ih, csum_setBlockCtl, csum_setBlockCtl, csum_alloc, csum_writePageDev]
          · dsimp only
            rw [csum_alloc, csum_writePageDev]
        · rw [ih, csum_writePageDev]
      · -- page write failed: truncate or reclaim, then allocate a replacement
        split
        · -- failing page > 0: truncate in place
          split
          · rw [ih, csum_setBlockCtl]
            split
            · rw [csum_setBlockCtl, csum_alloc, csum_setBlockCtl, csum_bumpError]
            · rw [csum_alloc, csum_setBlockCtl, csum_bumpError]
          · dsimp only
            rw [csum_alloc, csum_setBlockCtl, csum_bumpError]
        · -- failing page 0: reclaim the block
          split
          · rw [ih, csum_setBlockCtl]
            split
            · rw [csum_setBlockCtl, csum_alloc, csum_reclaim, csum_bumpError]
            · rw [csum_alloc, csum_reclaim, csum_bumpError]
          · dsimp only
            rw [csum_alloc, csum_reclaim, csum_bumpError]

theorem csum_data_write (D : bp_flash_driver_t) (fuel : Nat) (s : FlashGlobals)
    (addr : bp_flash_addr_t) (data : List Nat) :
    csum (flash_data_write D fuel s addr data).2.1 = csum s := by
  unfold flash_data_write
  split
  · rfl
  · exact csum_write_loop D fuel s addr data

theorem csum_read_loop (D : bp_flash_driver_t) :
    ∀ fuel s addr size, csum (flash_data_read_loop D fuel s addr size).2.1 = csum s := by
  intro fuel
  induction fuel with
  | zero => intro s addr size; rfl
  | succ f ih =>
    intro s addr size
    unfold flash_data_read_loop
    dsimp only
    split
    · rfl
    · split
      · split
        · split
          · rfl
          · dsimp only
            rw [ih]
        · dsimp only
          rw [ih]
      · rfl

theorem csum_data_read (D : bp_flash_driver_t) (fuel : Nat) (s : FlashGlobals)
    (addr : bp_flash_addr_t) (size : Nat) :
    csum (flash_data_read D fuel s addr size).2.1 = csum s := by
  unfold flash_data_read
  split
  · rfl
  · exact csum_read_loop D fuel s addr size

theorem csum_delete_loop (D : bp_flash_driver_t) :
    ∀ fuel s addr cb cf r, csum (flash_object_delete_loop D fuel s addr cb cf r).2 = csum s := by
  intro fuel
  induction fuel with
  | zero => intro s addr cb cf r; rfl
  | succ f ih =>
    intro s addr cb cf r
    unfold flash_object_delete_loop
    dsimp only
    simp only [apply_ite Prod.snd, apply_ite Prod.fst, apply_ite csum, ih,
      csum_setBlockCtl, csum_clearPageUse, csum_reclaim, csum_bumpError, ite_self]

theorem csum_object_delete (D : bp_flash_driver_t) (fuel : Nat) (s : FlashGlobals)
    (sid : Nat) : csum (flash_object_delete D fuel s sid).2 = csum s := by
  unfold flash_object_delete
  dsimp only
  split
  · rfl
  · split
    · rw [csum_data_read]
    · split
      · rw [csum_data_read]
      · rw [csum_delete_loop, csum_data_read]

end BplibFlash

namespace BplibFlash

/-- Free count + bad count, tracked through the FORMAT loop. -/
def fbsum (s : FlashGlobals) : Int :=
  s.flash_free_blocks.count + s.flash_bad_blocks.count

theorem fbsum_list_add (s : FlashGlobals) (w : WhichList) (b : Nat) :
    fbsum (flash_block_list_add s w b) = fbsum s + 1 := by
  cases w <;>
    · unfold flash_block_list_add getList setList fbsum
      dsimp only
      split <;> (dsimp only; ring)

theorem fbsum_reclaim (D : bp_flash_driver_t) (s : FlashGlobals) (b : Nat) :
    fbsum (flash_free_reclaim D s b).2 = fbsum s + 1 := by
  unfold flash_free_reclaim
  dsimp only
  split <;>
    · rw [fbsum_list_add]
      rfl

theorem fbsum_initFormatStep (D : bp_flash_driver_t) (acc : Int × FlashGlobals) (b : Nat) :
    fbsum (initFormatStep D acc b).2 = fbsum acc.2 + 1 := by
  unfold initFormatStep
  dsimp only
  exact fbsum_reclaim D acc.2 b

theorem fbsum_init_fold (D : bp_flash_driver_t) :
    ∀ (l : List Nat) (a : Int × FlashGlobals),
      fbsum ((l.foldl (initFormatStep D) a).2) = fbsum a.2 + l.length := by
  intro l
  induction l with
  | nil => intro a; simp
  | cons b t ih =>
    intro a
    rw [List.foldl_cons, ih, fbsum_initFormatStep]
    simp only [List.length_cons]
    push_cast
    ring

/-- After `init(FORMAT)` the (I2) sum equals the number of blocks. -/
theorem sumInv_init (D : bp_flash_driver_t) (s0 : FlashGlobals) :
    SumInv D (bplib_store_flash_init D s0 true).2 := by
  unfold bplib_store_flash_init SumInv
  dsimp only
  have h := fbsum_init_fold D (List.range D.num_blocks)
    (0, { s0 with
            flash_free_blocks := ⟨BP_FLASH_INVALID_INDEX, BP_FLASH_INVALID_INDEX, 0⟩,
            flash_bad_blocks := ⟨BP_FLASH_INVALID_INDEX, BP_FLASH_INVALID_INDEX, 0⟩ })
  simp only [List.length_range] at h
  unfold fbsum at h
  unfold csum
  dsimp only at h ⊢
  simp only [if_true]
  omega

/-- The operations of claim C5, acting on the global state. -/
inductive FlashOp where
  | reclaimOp (block : Nat)
  | allocateOp
  | dataWriteOp (fuel : Nat) (addr : bp_flash_addr_t) (data : List Nat)
  | objectDeleteOp (fuel : Nat) (sid : Nat)

def runFlashOp (D : bp_flash_driver_t) (s : FlashGlobals) : FlashOp → FlashGlobals
  | .reclaimOp b => (flash_free_reclaim D s b).2
  | .allocateOp => (flash_free_allocate D s).2.2
  | .dataWriteOp fuel addr data => (flash_data_write D fuel s addr data).2.1
  | .objectDeleteOp fuel sid => (flash_object_delete D fuel s sid).2

def runFlashOps (D : bp_flash_driver_t) (s : FlashGlobals) (ops : List FlashOp) :
    FlashGlobals :=
  ops.foldl (runFlashOp D) s

theorem csum_runFlashOp (D : bp_flash_driver_t) (s : FlashGlobals) (op : FlashOp) :
    csum (runFlashOp D s op) = csum s := by
  cases op with
  | reclaimOp b => exact csum_reclaim D s b
  | allocateOp => exact csum_alloc D s
  | dataWriteOp fuel addr data => exact csum_data_write D fuel s addr data
  | objectDeleteOp fuel sid => exact csum_object_delete D fuel s sid

theorem csum_runFlashOps (D : bp_flash_driver_t) :
    ∀ (ops : List FlashOp) (s : FlashGlobals), csum (runFlashOps D s ops) = csum s := by
  intro ops
  induction ops with
  | nil => intro s; rfl
  | cons op t ih =>
    intro s
    unfold runFlashOps at ih ⊢
    rw [List.foldl_cons, ih, csum_runFlashOp]

/-- C5: block-count conservation: after init completes, every sequence of
operations (allocate, reclaim, data_write with failures, object_delete)
preserves the invariant that the free list count plus the bad list count
plus the used block count equals the device's number of blocks. -/
theorem block_count_conservation (D : bp_flash_driver_t) (s0 : FlashGlobals)
    (ops : List FlashOp) :
    SumInv D (runFlashOps D (bplib_store_flash_init D s0 true).2 ops) := by
  unfold SumInv
  rw [csum_runFlashOps]
  exact sumInv_init D s0

end BplibFlash

namespace BplibFlash

/-! ### The count law -/

theorem object_write_count (D : bp_flash_driver_t) (fuel : Nat) (s : FlashGlobals)
    (fs : flash_store_t) (handle : Nat) (d1 d2 : List Nat) (t : Nat) :
    (flash_object_write D fuel s fs handle d1 d2 t).2.2.object_count = fs.object_count := by
  unfold flash_object_write
  dsimp only
  split <;> rfl

theorem object_read_count (D : bp_flash_driver_t) (fuel : Nat) (s : FlashGlobals)
    (fs : flash_store_t) (handle : Nat) (addr : bp_flash_addr_t) :
    (flash_object_read D fuel s fs handle addr).2.2.1.object_count = fs.object_count := by
  unfold flash_object_read
  dsimp only
  repeat' split
  all_goals rfl

theorem enqueue_count (D : bp_flash_driver_t) (fuel : Nat) (s : FlashGlobals)
    (fs : flash_store_t) (handle : Nat) (d1 d2 : List Nat) (t : Nat) :
    (bplib_store_flash_enqueue D fuel s fs handle d1 d2 t).2.2.object_count =
      fs.object_count +
        (if (bplib_store_flash_enqueue D fuel s fs handle d1 d2 t).1 = BPStatus.SUCCESS
         then 1 else 0) := by
  unfold bplib_store_flash_enqueue
  dsimp only
  repeat' split
  all_goals simp_all [object_write_count]

theorem dequeue_count (D : bp_flash_driver_t) (fuel : Nat) (s : FlashGlobals)
    (fs : flash_store_t) (handle : Nat) :
    (bplib_store_flash_dequeue D fuel s fs handle).2.2.1.object_count = fs.object_count := by
  unfold bplib_store_flash_dequeue
  dsimp only
  split
  · split
    · dsimp only
      rw [object_read_count]
    · dsimp only
      rw [object_read_count]
  · rfl

theorem retrieve_count (D : bp_flash_driver_t) (fuel : Nat) (s : FlashGlobals)
    (fs : flash_store_t) (handle sid : Nat) :
    (bplib_store_flash_retrieve D fuel s fs handle sid).2.2.1.object_count =
      fs.object_count := by
  unfold bplib_store_flash_retrieve
  dsimp only
  rw [object_read_count]

theorem release_count (fs : flash_store_t) (sid : Nat) :
    (bplib_store_flash_release fs sid).2.object_count = fs.object_count := by
  unfold bplib_store_flash_release
  split <;> rfl

theorem relinquish_count (D : bp_flash_driver_t) (fuel : Nat) (s : FlashGlobals)
    (fs : flash_store_t) (sid : Nat) :
    (bplib_store_flash_relinquish D fuel s fs sid).2.2.object_count =
      fs.object_count -
        (if (bplib_store_flash_relinquish D fuel s fs sid).1 = BPStatus.SUCCESS
         then 1 else 0) := by
  unfold bplib_store_flash_relinquish
  dsimp only
  split
  · rfl
  · dsimp only
    ring

/-- The public queue operations of claim C9 (inputs bundled per call). -/
inductive QueueOp where
  | enqueueOp (fuel : Nat) (d1 d2 : List Nat) (sysnow : Nat)
  | dequeueOp (fuel : Nat)
  | retrieveOp (fuel : Nat) (sid : Nat)
  | releaseOp (sid : Nat)
  | relinquishOp (fuel : Nat) (sid : Nat)

def runQueueOp (D : bp_flash_driver_t) (handle : Nat) (c : FlashGlobals × flash_store_t) :
    QueueOp → BPStatus × FlashGlobals × flash_store_t
  | .enqueueOp fuel d1 d2 t => bplib_store_flash_enqueue D fuel c.1 c.2 handle d1 d2 t
  | .dequeueOp fuel =>
    ((bplib_store_flash_dequeue D fuel c.1 c.2 handle).1,
     (bplib_store_flash_dequeue D fuel c.1 c.2 handle).2.1,
     (bplib_store_flash_dequeue D fuel c.1 c.2 handle).2.2.1)
  | .retrieveOp fuel sid =>
    ((bplib_store_flash_retrieve D fuel c.1 c.2 handle sid).1,
     (bplib_store_flash_retrieve D fuel c.1 c.2 handle sid).2.1,
     (bplib_store_flash_retrieve D fuel c.1 c.2 handle sid).2.2.1)
  | .releaseOp sid =>
    ((bplib_store_flash_release c.2 sid).1, c.1, (bplib_store_flash_release c.2 sid).2)
  | .relinquishOp fuel sid => bplib_store_flash_relinquish D fuel c.1 c.2 sid

def isEnqueueOp : QueueOp → Bool
  | .enqueueOp _ _ _ _ => true
  | _ => false

def isRelinquishOp : QueueOp → Bool
  | .relinquishOp _ _ => true
  | _ => false

def runQueueOps (D : bp_flash_driver_t) (handle : Nat) :
    FlashGlobals × flash_store_t → List QueueOp → FlashGlobals × flash_store_t
  | c, [] => c
  | c, op :: t => runQueueOps D handle (runQueueOp D handle c op).2 t

/-- Number of operations of kind `pred` in the trace that return `SUCCESS`. -/
def countSuccesses (D : bp_flash_driver_t) (handle : Nat) (pred : QueueOp → Bool) :
    FlashGlobals × flash_store_t → List QueueOp → Nat
  | _, [] => 0
  | c, op :: t =>
    (if pred op = true ∧ (runQueueOp D handle c op).1 = BPStatus.SUCCESS then 1 else 0) +
      countSuccesses D handle pred (runQueueOp D handle c op).2 t

theorem runQueueOp_count (D : bp_flash_driver_t) (handle : Nat)
    (c : FlashGlobals × flash_store_t) (op : QueueOp) :
    (runQueueOp D handle c op).2.2.object_count =
      c.2.object_count +
        (if isEnqueueOp op = true ∧ (runQueueOp D handle c op).1 = BPStatus.SUCCESS
         then 1 else 0) -
        (if isRelinquishOp op = true ∧ (runQueueOp D handle c op).1 = BPStatus.SUCCESS
         then 1 else 0) := by
  cases op with
  | enqueueOp fuel d1 d2 t =>
    simp [runQueueOp, isEnqueueOp, isRelinquishOp, enqueue_count]
  | dequeueOp fuel =>
    simp [runQueueOp, isEnqueueOp, isRelinquishOp, dequeue_count]
  | retrieveOp fuel sid =>
    simp [runQueueOp, isEnqueueOp, isRelinquishOp, retrieve_count]
  | releaseOp sid =>
    simp [runQueueOp, isEnqueueOp, isRelinquishOp, release_count]
  | relinquishOp fuel sid =>
    simp [runQueueOp, isEnqueueOp, isRelinquishOp, relinquish_count]

theorem runQueueOps_count (D : bp_flash_driver_t) (handle : Nat) :
    ∀ (ops : List QueueOp) (c : FlashGlobals × flash_store_t),
      (runQueueOps D handle c ops).2.object_count =
        c.2.object_count + (countSuccesses D handle isEnqueueOp c ops : Int) -
          (countSuccesses D handle isRelinquishOp c ops : Int) := by
  intro ops
  induction ops with
  | nil => intro c; simp [runQueueOps, countSuccesses]
  | cons op t ih =>
    intro c
    rw [show runQueueOps D handle c (op :: t) =
        runQueueOps D handle (runQueueOp D handle c op).2 t from rfl]
    rw [ih, runQueueOp_count]
    rw [show countSuccesses D handle isEnqueueOp c (op :: t) =
        (if isEnqueueOp op = true ∧ (runQueueOp D handle c op).1 = BPStatus.SUCCESS
         then 1 else 0) +
          countSuccesses D handle isEnqueueOp (runQueueOp D handle c op).2 t from rfl]
    rw [show countSuccesses D handle isRelinquishOp c (op :: t) =
        (if isRelinquishOp op = true ∧ (runQueueOp D handle c op).1 = BPStatus.SUCCESS
         then 1 else 0) +
          countSuccesses D handle isRelinquishOp (runQueueOp D handle c op).2 t from rfl]
    push_cast
    split_ifs <;> ring

/-- C9: count law: for every store, after any interleaving containing n
successful enqueues and k successful relinquishes (and any number of failed
operations, dequeues, retrieves and releases), getcount returns n - k. -/
theorem count_law (D : bp_flash_driver_t) (handle : Nat)
    (c : FlashGlobals × flash_store_t) (ops : List QueueOp)
    (h0 : c.2.object_count = 0) :
    bplib_store_flash_getcount (runQueueOps D handle c ops).2 =
      (countSuccesses D handle isEnqueueOp c ops : Int) -
        (countSuccesses D handle isRelinquishOp c ops : Int) := by
  unfold bplib_store_flash_getcount
  rw [runQueueOps_count, h0]
  ring

/-- Concrete configuration for the count law: a freshly formatted 2-block
device and a just-created store. -/
def countTraceConfig : FlashGlobals × flash_store_t :=
  ((bplib_store_flash_init (idealDriver 2 8 40) zeroGlobals true).2, freshStore 72)

/-- One successful enqueue followed by the relinquish of its SID. -/
def countTraceOps : List QueueOp :=
  [QueueOp.enqueueOp 100 [1, 2] [] 0, QueueOp.relinquishOp 100 1]

theorem count_law_witness :
    bplib_store_flash_getcount
        (runQueueOps (idealDriver 2 8 40) 3 countTraceConfig countTraceOps).2 =
      (countSuccesses (idealDriver 2 8 40) 3 isEnqueueOp countTraceConfig
          countTraceOps : Int) -
        (countSuccesses (idealDriver 2 8 40) 3 isRelinquishOp countTraceConfig
          countTraceOps : Int) :=
  count_law (idealDriver 2 8 40) 3 countTraceConfig countTraceOps rfl

end BplibFlash

namespace BplibFlash

/-! ### Page deletion clears exactly ceil(size / page_size) pages -/

/-- A read that fits in one page and does not touch the block boundary. -/
theorem data_read_single_page (D : bp_flash_driver_t) (fuel : Nat) (s : FlashGlobals)
    (b p n : Nat) (hn : 0 < n) (hnps : n ≤ D.page_size)
    (hread : D.read b p = BPStatus.SUCCESS)
    (hb : b < D.num_blocks) (hq : p + 1 < (s.flash_blocks b).max_pages)
    (hfuel : 2 ≤ fuel) :
    flash_data_read D fuel s ⟨b, p⟩ n =
      (BPStatus.SUCCESS, s, readPageDev s b p n, ⟨b, p + 1⟩) := by
  obtain ⟨f, rfl⟩ : ∃ f, fuel = f + 1 := ⟨fuel - 1, by omega⟩
  obtain ⟨g, rfl⟩ : ∃ g, f = g + 1 := ⟨f - 1, by omega⟩
  unfold flash_data_read
  rw [if_neg (by dsimp only; omega)]
  simp only [flash_data_read_loop]
  rw [if_neg (by omega : ¬(n = 0))]
  simp only [hread, if_true, Nat.min_eq_left hnps]
  rw [if_neg (by omega : ¬(p + 1 = (s.flash_blocks b).max_pages))]
  rw [Nat.sub_self]
  simp only [flash_data_read_loop, if_pos rfl]
  simp [List.append_nil]

theorem ceil_div_pos (size ps : Nat) (hps : 0 < ps) (hsz : 0 < size) :
    1 ≤ (size + ps - 1) / ps := by
  rw [Nat.le_div_iff_mul_le hps]
  omega

theorem ceil_div_zero_iff (r ps : Nat) (hps : 0 < ps) (hr : r = 0) :
    (r + ps - 1) / ps = 0 := by
  subst hr
  exact Nat.div_eq_of_lt (by omega)

theorem ceil_div_sub_page (r ps : Nat) (hps : 0 < ps) (hr : 0 < r) :
    (r - min r ps + ps - 1) / ps = (r + ps - 1) / ps - 1 := by
  rcases le_or_lt r ps with h | h
  · have hL : r - min r ps + ps - 1 = ps - 1 := by
      rw [Nat.min_eq_left h]
      omega
    have hR : r + ps - 1 = r - 1 + 1 * ps := by omega
    rw [hL, hR, Nat.add_mul_div_right _ _ hps,
      Nat.div_eq_of_lt (show ps - 1 < ps by omega),
      Nat.div_eq_of_lt (show r - 1 < ps by omega)]
  · have hL : r - min r ps + ps - 1 = r - 1 + 0 * ps := by
      rw [Nat.min_eq_right (le_of_lt h)]
      omega
    have hR : r + ps - 1 = r - 1 + 1 * ps := by omega
    rw [hL, hR, Nat.add_mul_div_right _ _ hps, Nat.add_mul_div_right _ _ hps]
    rw [Nat.add_zero, Nat.add_sub_cancel]

theorem clearPageUse_flash_blocks_self (s : FlashGlobals) (b q : Nat) :
    (clearPageUse s b q).flash_blocks b =
      { s.flash_blocks b with page_use := fun q' =>
          if q' = q then false else (s.flash_blocks b).page_use q' } := by
  simp [clearPageUse, setBlockCtl, updBlock]

theorem clearPageUse_flash_blocks_other (s : FlashGlobals) (b q b' : Nat) (h : b' ≠ b) :
    (clearPageUse s b q).flash_blocks b' = s.flash_blocks b' := by
  simp [clearPageUse, setBlockCtl, updBlock, h]

/-- The deletion loop with the object contained in a single block: every
visited page bit is set, the block never fills up, so the loop clears exactly
the object's pages and succeeds, touching nothing else. -/
theorem delete_loop_clears (D : bp_flash_driver_t) (b : Nat) (hps : 0 < D.page_size) :
    ∀ n fuel s q cb cf r,
      n = (r + D.page_size - 1) / D.page_size →
      q + n < (s.flash_blocks b).max_pages →
      (∀ j, j < n → (s.flash_blocks b).page_use (q + j) = true) →
      (if cb = b then cf else countFreePages D s b) + n < (s.flash_blocks b).max_pages →
      n + 1 ≤ fuel →
      (flash_object_delete_loop D fuel s ⟨b, q⟩ cb cf r).1 = BPStatus.SUCCESS ∧
      (flash_object_delete_loop D fuel s ⟨b, q⟩ cb cf r).2.flash_blocks b =
        { s.flash_blocks b with page_use := fun q' =>
            if q ≤ q' ∧ q' < q + n then false else (s.flash_blocks b).page_use q' } ∧
      (∀ b', b' ≠ b →
        (flash_object_delete_loop D fuel s ⟨b, q⟩ cb cf r).2.flash_blocks b' =
          s.flash_blocks b') ∧
      (flash_object_delete_loop D fuel s ⟨b, q⟩ cb cf r).2.flash_free_blocks =
        s.flash_free_blocks ∧
      (flash_object_delete_loop D fuel s ⟨b, q⟩ cb cf r).2.flash_bad_blocks =
        s.flash_bad_blocks ∧
      (flash_object_delete_loop D fuel s ⟨b, q⟩ cb cf r).2.flash_error_count =
        s.flash_error_count ∧
      (flash_object_delete_loop D fuel s ⟨b, q⟩ cb cf r).2.flash_used_block_count =
        s.flash_used_block_count ∧
      (flash_object_delete_loop D fuel s ⟨b, q⟩ cb cf r).2.pages = s.pages := by
  intro n
  induction n with
  | zero =>
    intro fuel s q cb cf r hn hroom hbits hfree hfuel
    have hr : r = 0 := by
      by_contra hr0
      have := ceil_div_pos r D.page_size hps (by omega)
      omega
    subst hr
    obtain ⟨f, rfl⟩ : ∃ f, fuel = f + 1 := ⟨fuel - 1, by omega⟩
    simp only [flash_object_delete_loop, if_pos rfl, if_true]
    refine ⟨trivial, ?_, fun b' _ => trivial, trivial, trivial, trivial, trivial, trivial⟩
    have hfun : (fun q' => if q ≤ q' ∧ q' < q + 0 then false
        else (s.flash_blocks b).page_use q') = (s.flash_blocks b).page_use := by
      funext q'
      rw [if_neg (by omega)]
    rw [hfun]
  | succ n' ih =>
    intro fuel s q cb cf r hn hroom hbits hfree hfuel
    have hr : 0 < r := by
      by_contra hr0
      rw [ceil_div_zero_iff r D.page_size hps (by omega)] at hn
      omega
    obtain ⟨f, rfl⟩ : ∃ f, fuel = f + 1 := ⟨fuel - 1, by omega⟩
    obtain ⟨CF, hCF⟩ : ∃ x, (if cb = b then cf else countFreePages D s b) = x := ⟨_, rfl⟩
    rw [hCF] at hfree
    have hpair : (if cb ≠ b then (b, countFreePages D s b) else (cb, cf)) = (b, CF) := by
      rw [← hCF]
      by_cases hcb : cb = b
      · subst hcb
        simp
      · simp [hcb]
    have hq0 : (s.flash_blocks b).page_use q = true := by
      have h0 := hbits 0 (by omega)
      simpa using h0
    have hmp : ((clearPageUse s b q).flash_blocks b).max_pages =
        (s.flash_blocks b).max_pages := by
      rw [clearPageUse_flash_blocks_self]
    have hq1 : ¬ (q + 1 = (s.flash_blocks b).max_pages) := by omega
    simp only [flash_object_delete_loop]
    rw [if_neg (by omega : ¬(r = 0))]
    rw [hpair]
    simp only [hq0, eq_self_iff_true, if_true]
    simp only [hmp]
    have hbound : ¬ (q + 1 = (s.flash_blocks b).max_pages ∧
        ((clearPageUse s b q).flash_blocks b).next_block = BP_FLASH_INVALID_INDEX) :=
      fun hc => hq1 hc.1
    rw [if_neg hbound]
    rw [if_neg hq1]
    rw [if_neg (by omega : ¬ ((s.flash_blocks b).max_pages ≤ CF + 1))]
    have hn' : n' = (r - min r D.page_size + D.page_size - 1) / D.page_size := by
      rw [ceil_div_sub_page r D.page_size hps hr, ← hn]
      omega
    have hroom' : q + 1 + n' < ((clearPageUse s b q).flash_blocks b).max_pages := by
      rw [hmp]
      omega
    have hbits' : ∀ j, j < n' →
        ((clearPageUse s b q).flash_blocks b).page_use (q + 1 + j) = true := by
      intro j hj
      rw [clearPageUse_flash_blocks_self]
      show (if q + 1 + j = q then false else (s.flash_blocks b).page_use (q + 1 + j)) = true
      rw [if_neg (by omega)]
      have h2 := hbits (j + 1) (by omega)
      rw [(by omega : q + 1 + j = q + (j + 1))]
      exact h2
    have hfree' : (if b = b then CF + 1 else countFreePages D (clearPageUse s b q) b) + n'
        < ((clearPageUse s b q).flash_blocks b).max_pages := by
      rw [if_pos rfl, hmp]
      omega
    have hIH := ih f (clearPageUse s b q) (q + 1) b (CF + 1) (r - min r D.page_size)
      hn' hroom' hbits' hfree' (by omega)
    obtain ⟨hS, hB, hO, hFr, hBa, hE, hU, hP⟩ := hIH
    have h2 : ({ (clearPageUse s b q).flash_blocks b with page_use := fun q' =>
          if q + 1 ≤ q' ∧ q' < q + 1 + n' then false
          else ((clearPageUse s b q).flash_blocks b).page_use q' } : flash_block_control_t) =
        { s.flash_blocks b with page_use := fun q' =>
          if q ≤ q' ∧ q' < q + (n' + 1) then false
          else (s.flash_blocks b).page_use q' } := by
      rw [clearPageUse_flash_blocks_self]
      dsimp only
      congr 1
      funext q'
      by_cases hA : q + 1 ≤ q' ∧ q' < q + 1 + n'
      · rw [if_pos hA, if_pos (by omega)]
      · rw [if_neg hA]
        by_cases hq' : q' = q
        · rw [if_pos hq', if_pos (by omega)]
        · rw [if_neg hq', if_neg (by omega)]
    exact ⟨hS, hB.trans h2,
      fun b' hb' => (hO b' hb').trans (clearPageUse_flash_blocks_other s b q b' hb'),
      hFr, hBa, hE, hU, hP⟩

/-- C3: (amended) for a validated single-block object of payload size `size`,
`flash_object_delete` returns success and clears the `page_use` bit of exactly
`⌈size / page_size⌉` consecutive pages starting at the header page — not
`⌈size / page_size⌉ + 1` as the spec's count would require: the loop counts
down from the payload size alone and the header shares the first counted
page, so no extra page beyond `⌈size / page_size⌉` is ever cleared. -/
theorem object_delete_clears_exact (D : bp_flash_driver_t) (fuel : Nat)
    (s : FlashGlobals) (b p size sid : Nat) (hdr : flash_object_hdr_t)
    (hps : FLASH_OBJECT_HDR_SIZE ≤ D.page_size)
    (hppb : 0 < D.pages_per_block) (hp : p < D.pages_per_block)
    (hinv : D.num_blocks ≤ BP_FLASH_INVALID_INDEX) (hbN : b < D.num_blocks)
    (hsid : sid = FLASH_GET_SID D ⟨b, p⟩)
    (hread : D.read b p = BPStatus.SUCCESS)
    (hhdr : readPageDev s b p FLASH_OBJECT_HDR_SIZE = encodeHdr hdr)
    (hh1 : hdr.sync < 2 ^ 64) (hh2 : hdr.timestamp < 2 ^ 64)
    (hh3 : hdr.object.handle < 2 ^ 32) (hh4 : hdr.object.size < 2 ^ 32)
    (hh5 : hdr.object.sid < 2 ^ 64)
    (hss : hdr.object.sid = sid) (hsz : hdr.object.size = size)
    (hpos : 0 < size)
    (hroom : p + (size + D.page_size - 1) / D.page_size < (s.flash_blocks b).max_pages)
    (hbits : ∀ j, j < (size + D.page_size - 1) / D.page_size →
      (s.flash_blocks b).page_use (p + j) = true)
    (hfree : countFreePages D s b + (size + D.page_size - 1) / D.page_size
      < (s.flash_blocks b).max_pages)
    (hfuel : (size + D.page_size - 1) / D.page_size + 1 ≤ fuel) :
    (flash_object_delete D fuel s sid).1 = BPStatus.SUCCESS ∧
    (flash_object_delete D fuel s sid).2.flash_blocks b =
      { s.flash_blocks b with page_use := fun q' =>
          if p ≤ q' ∧ q' < p + (size + D.page_size - 1) / D.page_size then false
          else (s.flash_blocks b).page_use q' } ∧
    (∀ b', b' ≠ b →
      (flash_object_delete D fuel s sid).2.flash_blocks b' = s.flash_blocks b') := by
  have hps0 : 0 < D.page_size := by
    have h32 : (0 : Nat) < FLASH_OBJECT_HDR_SIZE := by norm_num [FLASH_OBJECT_HDR_SIZE]
    omega
  set np := (size + D.page_size - 1) / D.page_size with hnp
  have hnp1 : 1 ≤ np := ceil_div_pos size D.page_size hps0 hpos
  have hblk : FLASH_GET_BLOCK D sid = b := by
    rw [hsid]
    simp only [FLASH_GET_BLOCK, FLASH_GET_SID]
    rw [Nat.add_sub_cancel, Nat.mul_comm, Nat.mul_add_div hppb,
      Nat.div_eq_of_lt hp, Nat.add_zero]
  have hpg : FLASH_GET_PAGE D sid = p := by
    rw [hsid]
    simp only [FLASH_GET_PAGE, FLASH_GET_SID]
    rw [Nat.add_sub_cancel, Nat.mul_comm, Nat.mul_add_mod, Nat.mod_eq_of_lt hp]
  simp only [flash_object_delete]
  rw [hblk, hpg]
  rw [if_neg (by omega : ¬ ((s.flash_blocks b).max_pages ≤ p ∨ D.num_blocks ≤ b))]
  rw [data_read_single_page D (FLASH_OBJECT_HDR_SIZE + 1) s b p FLASH_OBJECT_HDR_SIZE
    (by norm_num [FLASH_OBJECT_HDR_SIZE]) hps hread hbN (by omega)
    (by norm_num [FLASH_OBJECT_HDR_SIZE])]
  dsimp only
  rw [if_neg (fun hc => hc rfl)]
  have hdec : decodeHdr (readPageDev s b p FLASH_OBJECT_HDR_SIZE) = hdr := by
    rw [hhdr]
    have h := decodeHdr_encodeHdr hdr [] hh1 hh2 hh3 hh4 hh5
    rwa [List.append_nil] at h
  rw [hdec, hss]
  rw [if_neg (fun hc => hc rfl)]
  rw [hsz]
  have hloop := delete_loop_clears D b hps0 np fuel s p BP_FLASH_INVALID_INDEX 0 size
    hnp hroom hbits
    (by
      rw [if_neg (by omega : ¬ (BP_FLASH_INVALID_INDEX = b))]
      exact hfree)
    hfuel
  exact ⟨hloop.1, hloop.2.1, hloop.2.2.1⟩

/-- The header of the concrete 3-byte object used to exercise
`flash_object_delete` at SID 1 (block 0, page 0). -/
def delHdr : flash_object_hdr_t :=
  { sync := FLASH_OBJECT_SYNC, timestamp := 0,
    object := { handle := 7, size := 3, sid := 1 } }

/-- A store state holding that object: block 0 has pages 0 and 1 in use,
page 0 carries the encoded header. -/
def delState : FlashGlobals :=
  { flash_blocks := fun _ =>
      { next_block := BP_FLASH_INVALID_INDEX, prev_block := BP_FLASH_INVALID_INDEX,
        max_pages := 8, page_use := fun q => decide (q < 2) },
    flash_free_blocks := ⟨0, 0, 0⟩, flash_bad_blocks := ⟨0, 0, 0⟩,
    flash_error_count := 0, flash_used_block_count := 1,
    pages := fun b p o => if b = 0 ∧ p = 0 then (encodeHdr delHdr).getD o 0 else 0 }

theorem object_delete_clears_exact_witness :
    (flash_object_delete (idealDriver 2 8 40) 2 delState 1).1 = BPStatus.SUCCESS ∧
    (flash_object_delete (idealDriver 2 8 40) 2 delState 1).2.flash_blocks 0 =
      { delState.flash_blocks 0 with page_use := fun q' =>
          if 0 ≤ q' ∧ q' < 0 + (3 + (idealDriver 2 8 40).page_size - 1) /
              (idealDriver 2 8 40).page_size then false
          else (delState.flash_blocks 0).page_use q' } := by
  have h := object_delete_clears_exact (idealDriver 2 8 40) 2 delState 0 0 3 1 delHdr
    (by decide) (by decide) (by decide) (by decide) (by decide) (by decide) rfl
    (by decide) (by decide) (by decide) (by decide) (by decide) (by decide) rfl rfl
    (by decide) (by decide)
    (fun j hj => by
      have hdiv : (3 + (idealDriver 2 8 40).page_size - 1) /
          (idealDriver 2 8 40).page_size = 1 := by decide
      rw [hdiv] at hj
      have hj0 : j = 0 := by omega
      subst hj0
      rfl)
    (by decide) (by decide)
  exact ⟨h.1, h.2.1⟩

/-- C3 counterexample to the spec's count: deleting the validated 3-byte
object at SID 1 returns success having cleared only one page
(`⌈3 / 40⌉ = 1`) — the in-use bit of the following page survives, although a
count of `⌈size / page_size⌉ + 1 = 2` pages starting at the header page would
have cleared it. -/
theorem object_delete_extra_page_kept :
    (flash_object_delete (idealDriver 2 8 40) 2 delState 1).1 = BPStatus.SUCCESS ∧
    ((flash_object_delete (idealDriver 2 8 40) 2 delState 1).2.flash_blocks 0).page_use 0
      = false ∧
    ((flash_object_delete (idealDriver 2 8 40) 2 delState 1).2.flash_blocks 0).page_use 1
      = true := by
  refine ⟨by decide, by decide, by decide⟩

/-! ### Write-then-read round trip -/

/-- Number of device pages an `n`-byte transfer occupies
(`ceil(n / page_size)`, the loops' iteration count). -/
def pageCount (D : bp_flash_driver_t) (n : Nat) : Nat :=
  (n + D.page_size - 1) / D.page_size

/-- The address at which a page transfer that just finished page `a`
continues: the next page of the block, or page 0 of the block's successor
when `a` was the block's last page. -/
def rfNext (D : bp_flash_driver_t) (s : FlashGlobals) (a : bp_flash_addr_t) :
    bp_flash_addr_t :=
  if a.page + 1 = (s.flash_blocks a.block).max_pages then
    ⟨(s.flash_blocks a.block).next_block, 0⟩
  else ⟨a.block, a.page + 1⟩

/-- `ReadsFrom D s m a data`: the `m` chain pages starting at `a` hold `data`
and carry the block links `flash_data_read` follows (a successor block exists
whenever a page boundary is crossed, the last page included). -/
def ReadsFrom (D : bp_flash_driver_t) (s : FlashGlobals) :
    Nat → bp_flash_addr_t → List Nat → Prop
  | 0, _, data => data = []
  | m + 1, a, data =>
    data ≠ [] ∧
    a.block < D.num_blocks ∧
    a.page < (s.flash_blocks a.block).max_pages ∧
    (∀ o, o < min data.length D.page_size → s.pages a.block a.page o = data.getD o 0) ∧
    (a.page + 1 = (s.flash_blocks a.block).max_pages →
      (s.flash_blocks a.block).next_block ≠ BP_FLASH_INVALID_INDEX) ∧
    ReadsFrom D s m (rfNext D s a) (data.drop D.page_size)

/-- The free list holds exactly blocks `k .. num_blocks - 1` in ascending
order with full-sized `max_pages` — the shape `init` leaves and that
successful allocations maintain. -/
structure Canon (D : bp_flash_driver_t) (s : FlashGlobals) (k : Nat) : Prop where
  hout : s.flash_free_blocks.out =
    if k < D.num_blocks then k else BP_FLASH_INVALID_INDEX
  hcnt : s.flash_free_blocks.count = (D.num_blocks : Int) - k
  hnext : ∀ j, k ≤ j → j < D.num_blocks →
    (s.flash_blocks j).next_block =
      if j + 1 < D.num_blocks then j + 1 else BP_FLASH_INVALID_INDEX
  hmax : ∀ j, k ≤ j → j < D.num_blocks →
    (s.flash_blocks j).max_pages = D.pages_per_block

/-- The state a successful allocation of head block `k` leaves: `k` erased,
the used count up by one, the free list advanced past `k`. -/
def allocSucc (D : bp_flash_driver_t) (s : FlashGlobals) (k : Nat) : FlashGlobals :=
  { eraseDevice s k with
      flash_used_block_count := s.flash_used_block_count + 1,
      flash_free_blocks := { s.flash_free_blocks with
        out := (s.flash_blocks k).next_block,
        count := s.flash_free_blocks.count - 1 } }

theorem setBlockCtl_1self (s : FlashGlobals) (i : Nat) (ctl : flash_block_control_t) :
    (setBlockCtl s i ctl).flash_blocks i = ctl := by
  simp [setBlockCtl, updBlock]

theorem setBlockCtl_1other (s : FlashGlobals) (i : Nat) (ctl : flash_block_control_t)
    (j : Nat) (h : j ≠ i) : (setBlockCtl s i ctl).flash_blocks j = s.flash_blocks j := by
  simp [setBlockCtl, updBlock, h]

theorem writePageDev_flash_blocks (s : FlashGlobals) (a : bp_flash_addr_t)
    (bytes : List Nat) : (writePageDev s a bytes).flash_blocks = s.flash_blocks := rfl

theorem canon_writePageDev (D : bp_flash_driver_t) (s : FlashGlobals) (k : Nat)
    (a : bp_flash_addr_t) (bytes : List Nat) (hc : Canon D s k) :
    Canon D (writePageDev s a bytes) k :=
  ⟨hc.hout, hc.hcnt, hc.hnext, hc.hmax⟩

theorem canon_setBlockCtl (D : bp_flash_driver_t) (s : FlashGlobals) (k i : Nat)
    (ctl : flash_block_control_t) (hi : i < k) (hc : Canon D s k) :
    Canon D (setBlockCtl s i ctl) k := by
  refine ⟨hc.hout, hc.hcnt, ?_, ?_⟩
  · intro j h1 h2
    rw [setBlockCtl_1other s i ctl j (by omega)]
    exact hc.hnext j h1 h2
  · intro j h1 h2
    rw [setBlockCtl_1other s i ctl j (by omega)]
    exact hc.hmax j h1 h2

theorem canon_allocSucc (D : bp_flash_driver_t) (s : FlashGlobals) (k : Nat)
    (hc : Canon D s k) (hk : k < D.num_blocks) :
    Canon D (allocSucc D s k) (k + 1) := by
  refine ⟨?_, ?_, ?_, ?_⟩
  · show (s.flash_blocks k).next_block = _
    rw [hc.hnext k le_rfl hk]
  · show s.flash_free_blocks.count - 1 = _
    rw [hc.hcnt]
    push_cast
    ring
  · intro j h1 h2
    exact hc.hnext j (by omega) h2
  · intro j h1 h2
    exact hc.hmax j (by omega) h2

/-- On a canonical free list with head `k`, allocation pops and erases `k`. -/
theorem alloc_canon (D : bp_flash_driver_t) (s : FlashGlobals) (k : Nat)
    (he : ∀ b, D.erase b = BPStatus.SUCCESS)
    (hN : D.num_blocks ≤ BP_FLASH_INVALID_INDEX)
    (hc : Canon D s k) (hk : k < D.num_blocks) :
    flash_free_allocate D s = (BPStatus.SUCCESS, some k, allocSucc D s k) := by
  obtain ⟨f, hf⟩ : ∃ f, D.num_blocks + 1 = f + 2 := ⟨D.num_blocks - 1, by omega⟩
  have hout : s.flash_free_blocks.out = k := by
    rw [hc.hout, if_pos hk]
  unfold flash_free_allocate
  rw [hf]
  simp only [flash_free_allocate_loop]
  rw [if_neg (by
    rintro (h | h)
    · exact absurd h (by decide)
    · rw [hout] at h
      omega)]
  simp only [hout, he k, eq_self_iff_true, if_true, true_or]
  rfl

theorem take_getD (l : List Nat) (n o : Nat) (h : o < n) :
    (l.take n).getD o 0 = l.getD o 0 := by
  rcases Nat.lt_or_ge o l.length with h1 | h1
  · rw [List.getD_eq_getElem l 0 h1, List.getD_eq_getElem _ 0 (by
      rw [List.length_take]
      omega)]
    exact List.getElem_take l
  · rw [List.getD_eq_default _ 0 h1, List.getD_eq_default _ 0 (by
      rw [List.length_take]
      omega)]

theorem drop_min_self (l : List Nat) (n : Nat) :
    l.drop (min l.length n) = l.drop n := by
  rcases le_total n l.length with h | h
  · rw [Nat.min_eq_right h]
  · rw [Nat.min_eq_left h, List.drop_eq_nil_of_le h, List.drop_eq_nil_of_le le_rfl]

theorem take_min_append_drop (l : List Nat) (n : Nat) :
    l.take (min l.length n) ++ l.drop n = l := by
  rcases le_total n l.length with h | h
  · rw [Nat.min_eq_right h, List.take_append_drop]
  · rw [Nat.min_eq_left h, List.take_length, List.drop_eq_nil_of_le h, List.append_nil]

theorem range_map_getD (data : List Nat) (n : Nat) (hn : n ≤ data.length) :
    (List.range n).map (fun o => data.getD o 0) = data.take n := by
  apply List.ext_getElem
  · rw [List.length_map, List.length_range, List.length_take]
    omega
  · intro i h1 h2
    rw [List.length_map, List.length_range] at h1
    simp only [List.getElem_map, List.getElem_range, List.getElem_take]
    exact List.getD_eq_getElem data 0 (by omega)

theorem readPageDev_getD (s : FlashGlobals) (b p n o : Nat) (h : o < n) :
    (readPageDev s b p n).getD o 0 = s.pages b p o := by
  rw [List.getD_eq_getElem _ 0 (by rw [readPageDev_length]; omega)]
  simp [readPageDev]

theorem readPageDev_take (s : FlashGlobals) (b p n m : Nat) (h : m ≤ n) :
    (readPageDev s b p n).take m = readPageDev s b p m := by
  unfold readPageDev
  rw [← List.map_take, List.take_range, Nat.min_eq_left h]

theorem readPageDev_content (s : FlashGlobals) (b p n : Nat) (data : List Nat)
    (hn : n ≤ data.length)
    (hcont : ∀ o, o < n → s.pages b p o = data.getD o 0) :
    readPageDev s b p n = data.take n := by
  unfold readPageDev
  rw [List.map_congr_left (fun o ho => hcont o (List.mem_range.mp ho))]
  exact range_map_getD data n hn

theorem readsFrom_zero (D : bp_flash_driver_t) (s : FlashGlobals)
    (a : bp_flash_addr_t) (data : List Nat) :
    ReadsFrom D s 0 a data ↔ data = [] := Iff.rfl

theorem readsFrom_succ (D : bp_flash_driver_t) (s : FlashGlobals) (m : Nat)
    (a : bp_flash_addr_t) (data : List Nat) :
    ReadsFrom D s (m + 1) a data ↔
      (data ≠ [] ∧ a.block < D.num_blocks ∧
       a.page < (s.flash_blocks a.block).max_pages ∧
       (∀ o, o < min data.length D.page_size →
         s.pages a.block a.page o = data.getD o 0) ∧
       (a.page + 1 = (s.flash_blocks a.block).max_pages →
         (s.flash_blocks a.block).next_block ≠ BP_FLASH_INVALID_INDEX) ∧
       ReadsFrom D s m (rfNext D s a) (data.drop D.page_size)) := Iff.rfl

theorem writePageDev_pages_self (s : FlashGlobals) (b p : Nat) (bytes : List Nat)
    (o : Nat) (h : o < bytes.length) :
    (writePageDev s ⟨b, p⟩ bytes).pages b p o = bytes.getD o 0 % 256 := by
  show (if b = b ∧ p = p ∧ o < bytes.length then bytes.getD o 0 % 256 else s.pages b p o) = _
  rw [if_pos ⟨rfl, rfl, h⟩]

theorem writePageDev_pages_frame (s : FlashGlobals) (b0 p0 : Nat) (bytes : List Nat)
    (b p o : Nat) (h : ¬(b = b0 ∧ p = p0 ∧ o < bytes.length)) :
    (writePageDev s ⟨b0, p0⟩ bytes).pages b p o = s.pages b p o := by
  show (if b = b0 ∧ p = p0 ∧ o < bytes.length then bytes.getD o 0 % 256 else s.pages b p o) = _
  rw [if_neg h]

theorem setBlockCtl_pages (s : FlashGlobals) (i : Nat) (ctl : flash_block_control_t) :
    (setBlockCtl s i ctl).pages = s.pages := rfl

theorem allocSucc_flash_blocks (D : bp_flash_driver_t) (s : FlashGlobals) (k : Nat) :
    (allocSucc D s k).flash_blocks = s.flash_blocks := rfl

theorem allocSucc_pages_frame (D : bp_flash_driver_t) (s : FlashGlobals) (k : Nat)
    (b p o : Nat) (h : b ≠ k) : (allocSucc D s k).pages b p o = s.pages b p o := by
  show (if b = k then 255 else s.pages b p o) = s.pages b p o
  rw [if_neg h]

theorem pageCount_nil (D : bp_flash_driver_t) (hps : 0 < D.page_size) :
    pageCount D 0 = 0 := by
  unfold pageCount
  rw [Nat.zero_add]
  exact Nat.div_eq_of_lt (by omega)

/-- Full specification of the page-write loop on a healthy device: starting
inside open block `b` (page `p`) with a canonical free list from `k`, the
write succeeds, keeps the free list canonical, lays the data out readably
(`ReadsFrom`), touches no earlier page or block record, and leaves the cursor
strictly past the start. -/
theorem data_write_loop_ok (D : bp_flash_driver_t)
    (hw : ∀ b p, D.write b p = BPStatus.SUCCESS)
    (he : ∀ b, D.erase b = BPStatus.SUCCESS)
    (hN : D.num_blocks ≤ BP_FLASH_INVALID_INDEX)
    (hps : 0 < D.page_size) (hppb : 0 < D.pages_per_block) :
    ∀ fuel s b p data k,
      Canon D s k → b < k → k ≤ D.num_blocks →
      (s.flash_blocks b).max_pages = D.pages_per_block →
      p < D.pages_per_block →
      (∀ x ∈ data, x < 256) →
      k + (p + pageCount D data.length) / D.pages_per_block ≤ D.num_blocks →
      pageCount D data.length + 1 ≤ fuel →
      ∃ s' addr' k',
        flash_data_write_loop D fuel s ⟨b, p⟩ data = (BPStatus.SUCCESS, s', addr') ∧
        Canon D s' k' ∧ k ≤ k' ∧
        ReadsFrom D s' (pageCount D data.length) ⟨b, p⟩ data ∧
        (∀ b' p' o, b' < b ∨ (b' = b ∧ p' < p) → s'.pages b' p' o = s.pages b' p' o) ∧
        (∀ b', b' ≤ b → (s'.flash_blocks b').max_pages = (s.flash_blocks b').max_pages) ∧
        (∀ b', b' < b → (s'.flash_blocks b').next_block = (s.flash_blocks b').next_block) ∧
        b ≤ addr'.block ∧ (addr'.block = b → p ≤ addr'.page) ∧
        (data ≠ [] → ¬(addr'.block = b ∧ addr'.page = p)) := by
  intro fuel
  induction fuel with
  | zero =>
    intro s b p data k hc hbk hkN hmax hp hdata hcap hfuel
    omega
  | succ f ih =>
    intro s b p data k hc hbk hkN hmax hp hdata hcap hfuel
    by_cases hd0 : data.isEmpty = true
    · have hnil : data = [] := List.isEmpty_iff.mp hd0
      subst hnil
      have hP0 : pageCount D ([] : List Nat).length = 0 := pageCount_nil D hps
      refine ⟨s, ⟨b, p⟩, k, ?_, hc, le_rfl, ?_, fun _ _ _ _ => rfl, fun _ _ => rfl,
        fun _ _ => rfl, le_rfl, fun _ => le_rfl, fun hne => absurd rfl hne⟩
      · simp [flash_data_write_loop]
      · rw [hP0, readsFrom_zero]
    · have hdne : data ≠ [] := fun h => hd0 (by rw [h]; rfl)
      have hL : 0 < data.length := List.length_pos.mpr hdne
      have hP1 : 1 ≤ pageCount D data.length := ceil_div_pos _ _ hps hL
      have hdrop : data.drop (min data.length D.page_size) = data.drop D.page_size :=
        drop_min_self data D.page_size
      have hPtail : pageCount D (data.drop D.page_size).length =
          pageCount D data.length - 1 := by
        rw [List.length_drop]
        unfold pageCount
        rw [show data.length - D.page_size =
          data.length - min data.length D.page_size by omega]
        exact ceil_div_sub_page data.length D.page_size hps hL
      have hPtail' : pageCount D (data.drop (min data.length D.page_size)).length =
          pageCount D data.length - 1 := by
        rw [hdrop]
        exact hPtail
      have htail256 : ∀ x ∈ data.drop (min data.length D.page_size), x < 256 :=
        fun x hx => hdata x (List.mem_of_mem_drop hx)
      simp only [flash_data_write_loop]
      rw [if_neg hd0]
      simp only [hw, eq_self_iff_true, if_true, writePageDev_flash_blocks, hmax]
      by_cases hcross : p + 1 = D.pages_per_block
      · -- the written page was the block's last: allocate and bridge
        rw [if_pos hcross]
        have hdiv1 : 1 ≤ (p + pageCount D data.length) / D.pages_per_block := by
          rw [Nat.one_le_div_iff hppb]
          omega
        have hkN' : k < D.num_blocks := by omega
        set s1 := writePageDev s ⟨b, p⟩ (data.take (min data.length D.page_size)) with hs1
        have hc1 : Canon D s1 k := canon_writePageDev D s k _ _ hc
        rw [alloc_canon D s1 k he hN hc1 hkN']
        dsimp only
        rw [if_pos rfl]
        set s2 := allocSucc D s1 k with hs2
        set s3 := setBlockCtl s2 b { s2.flash_blocks b with next_block := k } with hs3
        set s4 := setBlockCtl s3 k { s3.flash_blocks k with prev_block := b } with hs4
        have hfb4b : s4.flash_blocks b = { s2.flash_blocks b with next_block := k } := by
          rw [hs4, setBlockCtl_1other s3 k _ b (by omega), hs3, setBlockCtl_1self]
        have hmax4b : (s4.flash_blocks b).max_pages = D.pages_per_block := by
          rw [hfb4b]
          exact hmax
        have hnext4b : (s4.flash_blocks b).next_block = k := by
          rw [hfb4b]
        have hmax4k : (s4.flash_blocks k).max_pages = D.pages_per_block := by
          rw [hs4, setBlockCtl_1self]
          show (s3.flash_blocks k).max_pages = _
          rw [hs3, setBlockCtl_1other s2 b _ k (by omega)]
          exact hc.hmax k le_rfl hkN'
        have hc4 : Canon D s4 (k + 1) :=
          canon_setBlockCtl D s3 (k + 1) k _ (by omega)
            (canon_setBlockCtl D s2 (k + 1) b _ (by omega)
              (canon_allocSucc D s1 k hc1 hkN'))
        have hrec := ih s4 k 0 (data.drop (min data.length D.page_size)) (k + 1)
          hc4 (by omega) (by omega) hmax4k hppb htail256
          (by
            rw [hPtail']
            have hsplit : p + pageCount D data.length =
                pageCount D data.length - 1 + 1 * D.pages_per_block := by omega
            rw [hsplit, Nat.add_mul_div_right _ _ hppb] at hcap
            rw [Nat.zero_add]
            omega)
          (by
            rw [hPtail']
            omega)
        obtain ⟨s', addr', k', heq, hc', hkk', hRF, hpg, hmaxf, hnextf, hba, hbp, hne2⟩ := hrec
        rw [hdrop, hPtail] at hRF
        refine ⟨s', addr', k', heq, hc', by omega, ?_, ?_, ?_, ?_, by omega,
          fun hb => by omega, fun _ hcon => absurd hcon.1 (by omega)⟩
        · -- ReadsFrom at the original start
          rw [show pageCount D data.length = pageCount D data.length - 1 + 1 by omega,
            readsFrom_succ]
          refine ⟨hdne, by show b < D.num_blocks; omega, ?_, ?_, ?_, ?_⟩
          · show p < (s'.flash_blocks b).max_pages
            rw [hmaxf b (by omega), hmax4b]
            omega
          · intro o ho
            show s'.pages b p o = data.getD o 0
            rw [hpg b p o (Or.inl (by omega))]
            have h4 : s4.pages = s2.pages := by
              rw [hs4, hs3, setBlockCtl_pages, setBlockCtl_pages]
            rw [h4, hs2, allocSucc_pages_frame D s1 k b p o (by omega), hs1,
              writePageDev_pages_self s b p _ o (by rw [List.length_take]; omega),
              take_getD data _ o ho,
              Nat.mod_eq_of_lt (hdata _ (by
                rw [List.getD_eq_getElem data 0 (by omega)]
                exact List.getElem_mem _))]
          · intro _
            show (s'.flash_blocks b).next_block ≠ BP_FLASH_INVALID_INDEX
            rw [hnextf b (by omega), hnext4b]
            omega
          · have hrf : rfNext D s' ⟨b, p⟩ = ⟨k, 0⟩ := by
              unfold rfNext
              dsimp only
              rw [hmaxf b (by omega), hmax4b, if_pos hcross, hnextf b (by omega), hnext4b]
            rw [hrf]
            exact hRF
        · -- pages of earlier positions unchanged
          intro b' p' o hpos
          rw [hpg b' p' o (Or.inl (by rcases hpos with h | ⟨rfl, _⟩ <;> omega))]
          have h4 : s4.pages = s2.pages := by
            rw [hs4, hs3, setBlockCtl_pages, setBlockCtl_pages]
          rw [h4, hs2, allocSucc_pages_frame D s1 k b' p' o
            (by rcases hpos with h | ⟨rfl, _⟩ <;> omega), hs1,
            writePageDev_pages_frame s b p _ b' p' o (by
              rintro ⟨rfl, rfl, _⟩
              rcases hpos with h | ⟨_, h⟩ <;> omega)]
        · -- max_pages of blocks up to b unchanged
          intro b' hb'
          rw [hmaxf b' (by omega), hs4, setBlockCtl_1other s3 k _ b' (by omega)]
          by_cases hbb : b' = b
          · subst hbb
            rw [hs3, setBlockCtl_1self]
            rfl
          · rw [hs3, setBlockCtl_1other s2 b _ b' hbb]
            rfl
        · -- next_block of blocks before b unchanged
          intro b' hb'
          rw [hnextf b' (by omega), hs4, setBlockCtl_1other s3 k _ b' (by omega),
            hs3, setBlockCtl_1other s2 b _ b' (by omega)]
          rfl
      · -- still inside the block: continue at the next page
        rw [if_neg hcross]
        have hrec := ih (writePageDev s ⟨b, p⟩ (data.take (min data.length D.page_size)))
          b (p + 1) (data.drop (min data.length D.page_size)) k
          (canon_writePageDev D s k _ _ hc) hbk hkN
          (by rw [writePageDev_flash_blocks]; exact hmax)
          (by omega) htail256
          (by
            rw [hPtail']
            rw [show p + 1 + (pageCount D data.length - 1) =
              p + pageCount D data.length by omega]
            exact hcap)
          (by
            rw [hPtail']
            omega)
        obtain ⟨s', addr', k', heq, hc', hkk', hRF, hpg, hmaxf, hnextf, hba, hbp, hne2⟩ := hrec
        rw [hdrop, hPtail] at hRF
        refine ⟨s', addr', k', heq, hc', hkk', ?_, ?_, ?_, ?_, hba,
          fun hb => by have := hbp hb; omega,
          fun _ hcon => by have := hbp hcon.1; omega⟩
        · rw [show pageCount D data.length = pageCount D data.length - 1 + 1 by omega,
            readsFrom_succ]
          refine ⟨hdne, by show b < D.num_blocks; omega, ?_, ?_, ?_, ?_⟩
          · show p < (s'.flash_blocks b).max_pages
            rw [hmaxf b le_rfl, writePageDev_flash_blocks, hmax]
            omega
          · intro o ho
            show s'.pages b p o = data.getD o 0
            rw [hpg b p o (Or.inr ⟨rfl, by omega⟩),
              writePageDev_pages_self s b p _ o (by rw [List.length_take]; omega),
              take_getD data _ o ho,
              Nat.mod_eq_of_lt (hdata _ (by
                rw [List.getD_eq_getElem data 0 (by omega)]
                exact List.getElem_mem _))]
          · intro hbd
            rw [hmaxf b le_rfl, writePageDev_flash_blocks, hmax] at hbd
            exact absurd hbd hcross
          · have hrf : rfNext D s' ⟨b, p⟩ = ⟨b, p + 1⟩ := by
              unfold rfNext
              dsimp only
              rw [hmaxf b le_rfl, writePageDev_flash_blocks, hmax, if_neg hcross]
            rw [hrf]
            exact hRF
        · intro b' p' o hpos
          have hpos' : b' < b ∨ (b' = b ∧ p' < p + 1) := by
            rcases hpos with h | ⟨h1, h2⟩
            · exact Or.inl h
            · exact Or.inr ⟨h1, by omega⟩
          rw [hpg b' p' o hpos',
            writePageDev_pages_frame s b p _ b' p' o (by
              rintro ⟨rfl, rfl, _⟩
              rcases hpos with h | ⟨_, h⟩ <;> omega)]
        · intro b' hb'
          rw [hmaxf b' hb', writePageDev_flash_blocks]
        · intro b' hb'
          rw [hnextf b' hb', writePageDev_flash_blocks]

/-- Replaying `flash_data_read_loop` over a laid-out (`ReadsFrom`) region of
exactly the requested length returns precisely those bytes, untouched state. -/
theorem readsFrom_read_exact (D : bp_flash_driver_t)
    (hr : ∀ b p, D.read b p = BPStatus.SUCCESS) (hps : 0 < D.page_size) :
    ∀ m fuel s a data, ReadsFrom D s m a data → m + 1 ≤ fuel →
      ∃ a', flash_data_read_loop D fuel s a data.length =
        (BPStatus.SUCCESS, s, data, a') := by
  intro m
  induction m with
  | zero =>
    intro fuel s a data hRF hfuel
    obtain ⟨f, rfl⟩ : ∃ f, fuel = f + 1 := ⟨fuel - 1, by omega⟩
    have hnil : data = [] := hRF
    subst hnil
    exact ⟨a, by simp [flash_data_read_loop]⟩
  | succ m ih =>
    intro fuel s a data hRF hfuel
    obtain ⟨f, rfl⟩ : ∃ f, fuel = f + 1 := ⟨fuel - 1, by omega⟩
    rw [readsFrom_succ] at hRF
    obtain ⟨hdne, hblk, hpage, hcont, hbound, htail⟩ := hRF
    have hL : 0 < data.length := List.length_pos.mpr hdne
    have hchunk : readPageDev s a.block a.page (min data.length D.page_size) =
        data.take (min data.length D.page_size) :=
      readPageDev_content s a.block a.page _ data (by omega) hcont
    have hlen : data.length - min data.length D.page_size =
        (data.drop D.page_size).length := by
      rw [List.length_drop]
      omega
    simp only [flash_data_read_loop]
    rw [if_neg (by omega : ¬(data.length = 0))]
    simp only [hr, eq_self_iff_true, if_true]
    rw [hchunk]
    by_cases hcrossR : a.page + 1 = (s.flash_blocks a.block).max_pages
    · rw [if_pos hcrossR, if_neg (hbound hcrossR)]
      have hrf : rfNext D s a = ⟨(s.flash_blocks a.block).next_block, 0⟩ := by
        unfold rfNext
        rw [if_pos hcrossR]
      rw [hrf] at htail
      obtain ⟨a2, h2⟩ := ih f s ⟨(s.flash_blocks a.block).next_block, 0⟩
        (data.drop D.page_size) htail (by omega)
      rw [hlen, h2]
      refine ⟨a2, ?_⟩
      dsimp only
      rw [take_min_append_drop]
    · rw [if_neg hcrossR]
      have hrf : rfNext D s a = ⟨a.block, a.page + 1⟩ := by
        unfold rfNext
        rw [if_neg hcrossR]
      rw [hrf] at htail
      obtain ⟨a2, h2⟩ := ih f s ⟨a.block, a.page + 1⟩
        (data.drop D.page_size) htail (by omega)
      rw [hlen, h2]
      refine ⟨a2, ?_⟩
      dsimp only
      rw [take_min_append_drop]

/-- Reading one full page of a laid-out region returns the raw page and
advances to `rfNext` (crossing into the linked successor at a boundary). -/
theorem readsFrom_read_page (D : bp_flash_driver_t)
    (hr : ∀ b p, D.read b p = BPStatus.SUCCESS) (hps : 0 < D.page_size)
    (fuel m : Nat) (s : FlashGlobals) (a : bp_flash_addr_t) (data : List Nat)
    (hRF : ReadsFrom D s (m + 1) a data) (hfuel : 2 ≤ fuel) :
    flash_data_read_loop D fuel s a D.page_size =
      (BPStatus.SUCCESS, s, readPageDev s a.block a.page D.page_size, rfNext D s a) := by
  obtain ⟨f, rfl⟩ : ∃ f, fuel = f + 2 := ⟨fuel - 2, by omega⟩
  rw [readsFrom_succ] at hRF
  obtain ⟨hdne, hblk, hpage, hcont, hbound, htail⟩ := hRF
  simp only [flash_data_read_loop]
  rw [if_neg (by omega : ¬(D.page_size = 0))]
  simp only [hr, eq_self_iff_true, if_true, Nat.min_self]
  rw [Nat.sub_self]
  by_cases hcrossR : a.page + 1 = (s.flash_blocks a.block).max_pages
  · rw [if_pos hcrossR, if_neg (hbound hcrossR)]
    simp only [flash_data_read_loop, eq_self_iff_true, if_true]
    have hrf : rfNext D s a = ⟨(s.flash_blocks a.block).next_block, 0⟩ := by
      unfold rfNext
      rw [if_pos hcrossR]
    rw [hrf]
    rw [List.append_nil]
  · rw [if_neg hcrossR]
    simp only [flash_data_read_loop, eq_self_iff_true, if_true]
    have hrf : rfNext D s a = ⟨a.block, a.page + 1⟩ := by
      unfold rfNext
      rw [if_neg hcrossR]
    rw [hrf]
    rw [List.append_nil]

/-- A windowed read off a device page agrees with the laid-out data. -/
theorem readPageDev_drop_take (s : FlashGlobals) (b p n off m : Nat) (data : List Nat)
    (h1 : off + m ≤ n) (h2 : off + m ≤ data.length)
    (hcont : ∀ o, o < off + m → s.pages b p o = data.getD o 0) :
    ((readPageDev s b p n).drop off).take m = (data.drop off).take m := by
  apply List.ext_getElem
  · rw [List.length_take, List.length_take, List.length_drop, List.length_drop,
      readPageDev_length]
    omega
  · intro i hi1 hi2
    rw [List.length_take, List.length_drop, readPageDev_length] at hi1
    rw [List.getElem_take, List.getElem_drop, List.getElem_take, List.getElem_drop]
    simp only [readPageDev, List.getElem_map, List.getElem_range]
    rw [hcont (off + i) (by omega), List.getD_eq_getElem data 0 (by omega)]

/-- C1: (amended) write-then-read round trip on a first-in-first-out store:
for every store whose queue is empty (read cursor equal to the write cursor)
and whose framed payload fits the free-block capacity and `max_data_size`, a
successful enqueue of `d1 ++ d2` followed by a dequeue returns the bytes of
`d1 ++ d2` exactly, with the returned header carrying `size = |d1 ++ d2|` and
the store handle.  (On a nonempty store the dequeue returns the oldest object
instead, so the spec round trip holds only from the empty-queue state.) -/
theorem enqueue_dequeue_roundtrip (D : bp_flash_driver_t)
    (fuelW fuelR : Nat) (s : FlashGlobals) (fs : flash_store_t)
    (handle sysnow : Nat) (d1 d2 : List Nat) (b p k : Nat)
    (hw : ∀ b2 p2, D.write b2 p2 = BPStatus.SUCCESS)
    (hr : ∀ b2 p2, D.read b2 p2 = BPStatus.SUCCESS)
    (he : ∀ b2, D.erase b2 = BPStatus.SUCCESS)
    (hN : D.num_blocks ≤ BP_FLASH_INVALID_INDEX)
    (hps : FLASH_OBJECT_HDR_SIZE ≤ D.page_size)
    (hppb : 0 < D.pages_per_block)
    (hc : Canon D s k) (hbk : b < k) (hkN : k ≤ D.num_blocks)
    (hwa : fs.write_addr = ⟨b, p⟩) (hra : fs.read_addr = ⟨b, p⟩)
    (hmaxb : (s.flash_blocks b).max_pages = D.pages_per_block)
    (hp : p < D.pages_per_block)
    (hlock : fs.stage_locked = false)
    (hbytes : ∀ x ∈ d1 ++ d2, x < 256)
    (hcap : FLASH_OBJECT_HDR_SIZE + d1.length + d2.length ≤
      (D.num_blocks - k) * D.pages_per_block * D.page_size)
    (hwrap : (D.num_blocks - k) * D.pages_per_block * D.page_size < 2 ^ 64)
    (hmds : FLASH_OBJECT_HDR_SIZE + d1.length + d2.length ≤ fs.max_data_size)
    (hsys : sysnow < 2 ^ 64)
    (hL32 : d1.length + d2.length < 2 ^ 32)
    (hhandle32 : handle < 2 ^ 32)
    (hsid64 : b * D.pages_per_block + p + 1 < 2 ^ 64)
    (hfW : pageCount D (FLASH_OBJECT_HDR_SIZE + d1.length + d2.length) + 1 ≤ fuelW)
    (hfR : pageCount D (FLASH_OBJECT_HDR_SIZE + d1.length + d2.length) + 1 ≤ fuelR) :
    (bplib_store_flash_enqueue D fuelW s fs handle d1 d2 sysnow).1 = BPStatus.SUCCESS ∧
    (bplib_store_flash_dequeue D fuelR
        (bplib_store_flash_enqueue D fuelW s fs handle d1 d2 sysnow).2.1
        (bplib_store_flash_enqueue D fuelW s fs handle d1 d2 sysnow).2.2 handle).1
      = BPStatus.SUCCESS ∧
    (bplib_store_flash_dequeue D fuelR
        (bplib_store_flash_enqueue D fuelW s fs handle d1 d2 sysnow).2.1
        (bplib_store_flash_enqueue D fuelW s fs handle d1 d2 sysnow).2.2 handle).2.2.2
      = some ⟨handle, d1.length + d2.length, FLASH_GET_SID D ⟨b, p⟩⟩ ∧
    (((bplib_store_flash_dequeue D fuelR
        (bplib_store_flash_enqueue D fuelW s fs handle d1 d2 sysnow).2.1
        (bplib_store_flash_enqueue D fuelW s fs handle d1 d2 sysnow).2.2
        handle).2.2.1.read_stage.drop FLASH_OBJECT_HDR_SIZE).take
      (d1.length + d2.length)) = d1 ++ d2 := by
  have hps0 : 0 < D.page_size := by
    have h32 : (0 : Nat) < FLASH_OBJECT_HDR_SIZE := by norm_num [FLASH_OBJECT_HDR_SIZE]
    omega
  have hstageLen : (encodeHdr { sync := FLASH_OBJECT_SYNC, timestamp := sysnow, object := { handle := handle, size := d1.length + d2.length, sid := FLASH_GET_SID D ⟨b, p⟩ } } ++ d1 ++ d2).length
      = FLASH_OBJECT_HDR_SIZE + d1.length + d2.length := by
    rw [List.length_append, List.length_append, encodeHdr_length]
  have hstage256 : ∀ x ∈ encodeHdr { sync := FLASH_OBJECT_SYNC, timestamp := sysnow, object := { handle := handle, size := d1.length + d2.length, sid := FLASH_GET_SID D ⟨b, p⟩ } } ++ d1 ++ d2, x < 256 := by
    intro x hx
    rcases List.mem_append.mp hx with hx1 | hx1
    · rcases List.mem_append.mp hx1 with hx2 | hx2
      · exact encodeHdr_lt _ x hx2
      · exact hbytes x (List.mem_append.mpr (Or.inl hx2))
    · exact hbytes x (List.mem_append.mpr (Or.inr hx1))
  have hPle : pageCount D (FLASH_OBJECT_HDR_SIZE + d1.length + d2.length)
      ≤ (D.num_blocks - k) * D.pages_per_block := by
    unfold pageCount
    calc (FLASH_OBJECT_HDR_SIZE + d1.length + d2.length + D.page_size - 1) / D.page_size
        ≤ (D.page_size - 1 + (D.num_blocks - k) * D.pages_per_block * D.page_size) /
            D.page_size := Nat.div_le_div_right (by omega)
      _ = (D.page_size - 1) / D.page_size + (D.num_blocks - k) * D.pages_per_block :=
          Nat.add_mul_div_right _ _ hps0
      _ = (D.num_blocks - k) * D.pages_per_block := by
          rw [Nat.div_eq_of_lt (by omega), Nat.zero_add]
  have hcapPages : k + (p + pageCount D (encodeHdr { sync := FLASH_OBJECT_SYNC, timestamp := sysnow, object := { handle := handle, size := d1.length + d2.length, sid := FLASH_GET_SID D ⟨b, p⟩ } } ++ d1 ++ d2).length)
      / D.pages_per_block ≤ D.num_blocks := by
    rw [hstageLen]
    have h2 : (p + pageCount D (FLASH_OBJECT_HDR_SIZE + d1.length + d2.length)) /
        D.pages_per_block ≤ D.num_blocks - k := by
      calc (p + pageCount D (FLASH_OBJECT_HDR_SIZE + d1.length + d2.length)) /
          D.pages_per_block
          ≤ (D.pages_per_block - 1 + (D.num_blocks - k) * D.pages_per_block) /
              D.pages_per_block := Nat.div_le_div_right (by omega)
        _ = (D.pages_per_block - 1) / D.pages_per_block + (D.num_blocks - k) :=
            Nat.add_mul_div_right _ _ hppb
        _ = D.num_blocks - k := by
            rw [Nat.div_eq_of_lt (by omega), Nat.zero_add]
    omega
  have hwl := data_write_loop_ok D hw he hN hps0 hppb fuelW s b p
    (encodeHdr { sync := FLASH_OBJECT_SYNC, timestamp := sysnow, object := { handle := handle, size := d1.length + d2.length, sid := FLASH_GET_SID D ⟨b, p⟩ } } ++ d1 ++ d2) k hc hbk hkN hmaxb hp hstage256 hcapPages
    (by rw [hstageLen]; exact hfW)
  obtain ⟨s2, addr2, k2, heqW, hc2, hkk2, hRF, hpgF, hmaxF, hnextF, hba2, hbp2, hneW⟩ := hwl
  have hstne : (encodeHdr { sync := FLASH_OBJECT_SYNC, timestamp := sysnow, object := { handle := handle, size := d1.length + d2.length, sid := FLASH_GET_SID D ⟨b, p⟩ } } ++ d1 ++ d2) ≠ [] := by
    have hpos : 0 < (encodeHdr { sync := FLASH_OBJECT_SYNC, timestamp := sysnow, object := { handle := handle, size := d1.length + d2.length, sid := FLASH_GET_SID D ⟨b, p⟩ } } ++ d1 ++ d2).length := by
      rw [hstageLen]
      norm_num [FLASH_OBJECT_HDR_SIZE]
    exact List.length_pos.mp hpos
  have hneW' := hneW hstne
  have hbInv : ¬ b = BP_FLASH_INVALID_INDEX := by omega
  have hNk64 : D.num_blocks - k < 2 ^ 64 := by
    have h1 : D.num_blocks - k ≤ (D.num_blocks - k) * D.pages_per_block * D.page_size := by
      calc D.num_blocks - k = D.num_blocks - k := rfl
        _ ≤ (D.num_blocks - k) * D.pages_per_block :=
            Nat.le_mul_of_pos_right _ hppb
        _ ≤ (D.num_blocks - k) * D.pages_per_block * D.page_size :=
            Nat.le_mul_of_pos_right _ hps0
    omega
  have hc64 : (s.flash_free_blocks.count % (2 ^ 64 : Int)).toNat = D.num_blocks - k := by
    rw [hc.hcnt, ← Nat.cast_sub hkN]
    rw [Int.emod_eq_of_lt (by positivity) (by exact_mod_cast hNk64)]
    exact Int.toNat_natCast _
  have hcapav : FLASH_OBJECT_HDR_SIZE + d1.length + d2.length ≤
      (s.flash_free_blocks.count % (2 ^ 64 : Int)).toNat * D.pages_per_block *
        D.page_size % 2 ^ 64 ∧
      FLASH_OBJECT_HDR_SIZE + d1.length + d2.length ≤ fs.max_data_size := by
    refine ⟨?_, hmds⟩
    rw [hc64, Nat.mod_eq_of_lt hwrap]
    exact hcap
  have hvalid : ¬ ((s.flash_blocks b).max_pages ≤ p ∨ D.num_blocks ≤ b) := by
    rw [hmaxb]
    omega
  have hENQ : bplib_store_flash_enqueue D fuelW s fs handle d1 d2 sysnow =
      (BPStatus.SUCCESS, s2,
        { fs with write_stage := encodeHdr { sync := FLASH_OBJECT_SYNC, timestamp := sysnow, object := { handle := handle, size := d1.length + d2.length, sid := FLASH_GET_SID D ⟨b, p⟩ } } ++ d1 ++ d2,
                  write_addr := addr2,
                  object_count := fs.object_count + 1 }) := by
    unfold bplib_store_flash_enqueue flash_object_write flash_data_write
    simp only [hwa, hra]
    rw [if_neg hbInv, if_neg hbInv]
    simp only [hwa]
    rw [if_pos hcapav, if_neg hvalid, heqW]
    dsimp only
    rw [if_pos rfl]
    rw [hra]
  -- facts feeding the dequeue
  have hmax2b : (s2.flash_blocks b).max_pages = D.pages_per_block := by
    rw [hmaxF b le_rfl, hmaxb]
  have hvalid2 : ¬ ((s2.flash_blocks b).max_pages ≤ p ∨ D.num_blocks ≤ b) := by
    rw [hmax2b]
    omega
  have hfR' : pageCount D (encodeHdr { sync := FLASH_OBJECT_SYNC, timestamp := sysnow, object := { handle := handle, size := d1.length + d2.length, sid := FLASH_GET_SID D ⟨b, p⟩ } } ++ d1 ++ d2).length + 1 ≤ fuelR := by
    rw [hstageLen]
    exact hfR
  obtain ⟨m0, hm0⟩ : ∃ m0,
      pageCount D (encodeHdr { sync := FLASH_OBJECT_SYNC, timestamp := sysnow, object := { handle := handle, size := d1.length + d2.length, sid := FLASH_GET_SID D ⟨b, p⟩ } } ++ d1 ++ d2).length = m0 + 1 := by
    have h1 : 1 ≤ pageCount D (encodeHdr { sync := FLASH_OBJECT_SYNC, timestamp := sysnow, object := { handle := handle, size := d1.length + d2.length, sid := FLASH_GET_SID D ⟨b, p⟩ } } ++ d1 ++ d2).length := by
      apply ceil_div_pos _ _ hps0
      rw [hstageLen]
      norm_num [FLASH_OBJECT_HDR_SIZE]
    exact ⟨pageCount D (encodeHdr { sync := FLASH_OBJECT_SYNC, timestamp := sysnow, object := { handle := handle, size := d1.length + d2.length, sid := FLASH_GET_SID D ⟨b, p⟩ } } ++ d1 ++ d2).length - 1, by omega⟩
  rw [hm0] at hRF
  have hRF2 := hRF
  rw [readsFrom_succ] at hRF2
  obtain ⟨hsne, hblk2, hpage2, hcont2, hbound2, htail2⟩ := hRF2
  have houtTake32 : (readPageDev s2 b p D.page_size).take FLASH_OBJECT_HDR_SIZE =
      encodeHdr { sync := FLASH_OBJECT_SYNC, timestamp := sysnow, object := { handle := handle, size := d1.length + d2.length, sid := FLASH_GET_SID D ⟨b, p⟩ } } := by
    rw [readPageDev_take s2 b p D.page_size FLASH_OBJECT_HDR_SIZE hps]
    rw [readPageDev_content s2 b p FLASH_OBJECT_HDR_SIZE (encodeHdr { sync := FLASH_OBJECT_SYNC, timestamp := sysnow, object := { handle := handle, size := d1.length + d2.length, sid := FLASH_GET_SID D ⟨b, p⟩ } } ++ d1 ++ d2)
      (by rw [hstageLen]; omega)
      (fun o ho => hcont2 o (by rw [hstageLen]; omega))]
    rw [List.append_assoc, take_append_len _ _ FLASH_OBJECT_HDR_SIZE (encodeHdr_length _)]
  have hdec1 : ∀ junk : List Nat,
      decodeHdr (readPageDev s2 b p D.page_size ++ junk) = { sync := FLASH_OBJECT_SYNC, timestamp := sysnow, object := { handle := handle, size := d1.length + d2.length, sid := FLASH_GET_SID D ⟨b, p⟩ } } := by
    intro junk
    have h1 : readPageDev s2 b p D.page_size ++ junk
        = encodeHdr { sync := FLASH_OBJECT_SYNC, timestamp := sysnow, object := { handle := handle, size := d1.length + d2.length, sid := FLASH_GET_SID D ⟨b, p⟩ } } ++
          ((readPageDev s2 b p D.page_size).drop FLASH_OBJECT_HDR_SIZE ++ junk) := by
      conv_lhs => rw [← List.take_append_drop FLASH_OBJECT_HDR_SIZE
        (readPageDev s2 b p D.page_size)]
      rw [houtTake32, List.append_assoc]
    rw [h1]
    refine decodeHdr_encodeHdr _ _ ?_ hsys hhandle32 hL32 ?_
    · show FLASH_OBJECT_SYNC < 2 ^ 64
      norm_num [FLASH_OBJECT_SYNC]
    · show FLASH_GET_SID D ⟨b, p⟩ < 2 ^ 64
      unfold FLASH_GET_SID
      dsimp only
      exact hsid64
  have hsplice0 : ∀ buf new : List Nat, spliceAt buf 0 new = new ++ buf.drop new.length := by
    intro buf new
    unfold spliceAt
    rw [List.take_zero, List.nil_append, Nat.zero_add]
  have hcond : ¬ b = addr2.block ∨ ¬ p = addr2.page := by
    by_cases hbb : addr2.block = b
    · exact Or.inr (fun hpp => hneW' ⟨hbb, hpp.symm⟩)
    · exact Or.inl (fun hh => hbb hh.symm)
  have hDEQ : ∃ fsr, bplib_store_flash_dequeue D fuelR s2
      { fs with write_stage := encodeHdr { sync := FLASH_OBJECT_SYNC, timestamp := sysnow, object := { handle := handle, size := d1.length + d2.length, sid := FLASH_GET_SID D ⟨b, p⟩ } } ++ d1 ++ d2,
                write_addr := addr2,
                object_count := fs.object_count + 1 } handle =
      (BPStatus.SUCCESS, s2, fsr, some ({ sync := FLASH_OBJECT_SYNC, timestamp := sysnow, object := { handle := handle, size := d1.length + d2.length, sid := FLASH_GET_SID D ⟨b, p⟩ } } : flash_object_hdr_t).object) ∧
      ((fsr.read_stage.drop FLASH_OBJECT_HDR_SIZE).take (d1.length + d2.length))
        = d1 ++ d2 := by
    unfold bplib_store_flash_dequeue flash_object_read flash_data_read
    simp only [hra, hlock]
    rw [if_pos hcond]
    simp only [eq_self_iff_true, if_true]
    rw [if_neg hvalid2]
    rw [readsFrom_read_page D hr hps0 fuelR m0 s2 ⟨b, p⟩
      (encodeHdr { sync := FLASH_OBJECT_SYNC, timestamp := sysnow, object := { handle := handle, size := d1.length + d2.length, sid := FLASH_GET_SID D ⟨b, p⟩ } } ++ d1 ++ d2) hRF (by omega)]
    dsimp only
    simp only [eq_self_iff_true, if_true]
    rw [hsplice0]
    rw [hdec1]
    dsimp only
    rw [if_pos (show d1.length + d2.length ≤ fs.max_data_size ∧ handle = handle ∧
      FLASH_OBJECT_SYNC = FLASH_OBJECT_SYNC from ⟨by omega, rfl, rfl⟩)]
    by_cases hBig : D.page_size < FLASH_OBJECT_HDR_SIZE + (d1.length + d2.length)
    · -- the object spans past the first page: a second read follows
      rw [if_pos (show (0 : Int) < ((d1.length + d2.length : Nat) : Int) -
        ((D.page_size : Int) - (FLASH_OBJECT_HDR_SIZE : Int)) by omega)]
      rw [show (((d1.length + d2.length : Nat) : Int) -
        ((D.page_size : Int) - (FLASH_OBJECT_HDR_SIZE : Int))).toNat =
        FLASH_OBJECT_HDR_SIZE + (d1.length + d2.length) - D.page_size by omega]
      have hdropne : (encodeHdr { sync := FLASH_OBJECT_SYNC, timestamp := sysnow, object := { handle := handle, size := d1.length + d2.length, sid := FLASH_GET_SID D ⟨b, p⟩ } } ++ d1 ++ d2).drop D.page_size ≠ [] := by
        apply List.length_pos.mp
        rw [List.length_drop, hstageLen]
        omega
      obtain ⟨m1, rfl⟩ : ∃ m1, m0 = m1 + 1 := by
        rcases Nat.eq_zero_or_pos m0 with h0 | h0
        · rw [h0, readsFrom_zero] at htail2
          exact absurd htail2 hdropne
        · exact ⟨m0 - 1, by omega⟩
      have htail2' := htail2
      rw [readsFrom_succ] at htail2'
      obtain ⟨hne3, hblk3, hpage3, hcont3, hbound3, htail3⟩ := htail2'
      rw [if_neg (show ¬ ((s2.flash_blocks (rfNext D s2 ⟨b, p⟩).block).max_pages ≤
        (rfNext D s2 ⟨b, p⟩).page ∨ D.num_blocks ≤ (rfNext D s2 ⟨b, p⟩).block) by omega)]
      rw [show FLASH_OBJECT_HDR_SIZE + (d1.length + d2.length) - D.page_size =
        ((encodeHdr { sync := FLASH_OBJECT_SYNC, timestamp := sysnow, object := { handle := handle, size := d1.length + d2.length, sid := FLASH_GET_SID D ⟨b, p⟩ } } ++ d1 ++ d2).drop D.page_size).length by
          rw [List.length_drop, hstageLen]
          omega]
      obtain ⟨a3, hread2⟩ := readsFrom_read_exact D hr hps0 (m1 + 1) fuelR s2
        (rfNext D s2 ⟨b, p⟩) ((encodeHdr { sync := FLASH_OBJECT_SYNC, timestamp := sysnow, object := { handle := handle, size := d1.length + d2.length, sid := FLASH_GET_SID D ⟨b, p⟩ } } ++ d1 ++ d2).drop D.page_size)
        htail2 (by omega)
      rw [hread2]
      dsimp only
      simp only [eq_self_iff_true, if_true]
      -- the second splice
      have hsplice2 : ∀ junk rest2 : List Nat,
          spliceAt (readPageDev s2 b p D.page_size ++ junk) D.page_size rest2 =
          readPageDev s2 b p D.page_size ++ rest2 ++
            (readPageDev s2 b p D.page_size ++ junk).drop (D.page_size + rest2.length) := by
        intro junk rest2
        unfold spliceAt
        rw [take_append_len _ _ D.page_size (readPageDev_length s2 b p D.page_size)]
      rw [hsplice2]
      rw [List.append_assoc (readPageDev s2 b p D.page_size), hdec1]
      dsimp only
      refine ⟨_, rfl, ?_⟩
      -- payload extraction, spanning case
      rw [List.drop_append_of_le_length (by rw [readPageDev_length]; exact hps)]
      have hfirst : (readPageDev s2 b p D.page_size).drop FLASH_OBJECT_HDR_SIZE =
          (d1 ++ d2).take (D.page_size - FLASH_OBJECT_HDR_SIZE) := by
        have h2 : ((readPageDev s2 b p D.page_size).drop FLASH_OBJECT_HDR_SIZE).take
            (D.page_size - FLASH_OBJECT_HDR_SIZE) =
            (readPageDev s2 b p D.page_size).drop FLASH_OBJECT_HDR_SIZE :=
          List.take_of_length_le (by
            rw [List.length_drop, readPageDev_length])
        rw [← h2]
        rw [readPageDev_drop_take s2 b p D.page_size FLASH_OBJECT_HDR_SIZE
          (D.page_size - FLASH_OBJECT_HDR_SIZE) (encodeHdr { sync := FLASH_OBJECT_SYNC, timestamp := sysnow, object := { handle := handle, size := d1.length + d2.length, sid := FLASH_GET_SID D ⟨b, p⟩ } } ++ d1 ++ d2)
          (by omega) (by rw [hstageLen]; omega)
          (fun o ho => hcont2 o (by rw [hstageLen]; omega))]
        rw [List.append_assoc, show FLASH_OBJECT_HDR_SIZE = FLASH_OBJECT_HDR_SIZE + 0
          from rfl, drop_append_len _ _ _ 0 (encodeHdr_length _), List.drop_zero]
      have hsecond : (encodeHdr { sync := FLASH_OBJECT_SYNC, timestamp := sysnow, object := { handle := handle, size := d1.length + d2.length, sid := FLASH_GET_SID D ⟨b, p⟩ } } ++ d1 ++ d2).drop D.page_size =
          (d1 ++ d2).drop (D.page_size - FLASH_OBJECT_HDR_SIZE) := by
        rw [List.append_assoc, show D.page_size =
          FLASH_OBJECT_HDR_SIZE + (D.page_size - FLASH_OBJECT_HDR_SIZE) by omega,
          drop_append_len _ _ _ _ (encodeHdr_length _)]
        congr 1
        omega
      rw [hfirst, hsecond, ← List.append_assoc, List.take_append_drop,
        take_append_len _ _ (d1.length + d2.length) (by rw [List.length_append])]
    · -- the whole object sits in the first page
      rw [if_neg (show ¬ (0 : Int) < ((d1.length + d2.length : Nat) : Int) -
        ((D.page_size : Int) - (FLASH_OBJECT_HDR_SIZE : Int)) by omega)]
      dsimp only
      refine ⟨_, rfl, ?_⟩
      rw [List.drop_append_of_le_length (by rw [readPageDev_length]; exact hps)]
      rw [List.take_append_of_le_length (by
        rw [List.length_drop, readPageDev_length]
        omega)]
      rw [readPageDev_drop_take s2 b p D.page_size FLASH_OBJECT_HDR_SIZE
        (d1.length + d2.length) (encodeHdr { sync := FLASH_OBJECT_SYNC, timestamp := sysnow, object := { handle := handle, size := d1.length + d2.length, sid := FLASH_GET_SID D ⟨b, p⟩ } } ++ d1 ++ d2)
        (by omega) (by rw [hstageLen]; omega)
        (fun o ho => hcont2 o (by rw [hstageLen]; omega))]
      rw [List.append_assoc, show FLASH_OBJECT_HDR_SIZE = FLASH_OBJECT_HDR_SIZE + 0
        from rfl, drop_append_len _ _ _ 0 (encodeHdr_length _), List.drop_zero]
      rw [show d1.length + d2.length = (d1 ++ d2).length from (List.length_append d1 d2).symm,
        List.take_length]
  obtain ⟨fsr, hD, hpay⟩ := hDEQ
  rw [hENQ]
  dsimp only
  rw [hD]
  exact ⟨rfl, rfl, rfl, hpay⟩

/-- A one-object-capable store state: block 0 open and empty at page 0,
block 1 the single free block, every block full-sized. -/
def wState : FlashGlobals :=
  { flash_blocks := fun _ =>
      { next_block := BP_FLASH_INVALID_INDEX, prev_block := BP_FLASH_INVALID_INDEX,
        max_pages := 8, page_use := fun _ => true },
    flash_free_blocks := ⟨1, 1, 1⟩,
    flash_bad_blocks := ⟨BP_FLASH_INVALID_INDEX, BP_FLASH_INVALID_INDEX, 0⟩,
    flash_error_count := 0, flash_used_block_count := 1,
    pages := fun _ _ _ => 0 }

/-- A created store with empty queue at `(0, 0)`. -/
def wStore : flash_store_t :=
  { in_use := true, max_data_size := 72, write_addr := ⟨0, 0⟩, read_addr := ⟨0, 0⟩,
    write_stage := [], read_stage := List.replicate 72 0, stage_locked := false,
    object_count := 0 }

def wEnq : BPStatus × FlashGlobals × flash_store_t :=
  bplib_store_flash_enqueue (idealDriver 2 8 40) 2 wState wStore 7 [1, 2] [] 0

def wDeq : BPStatus × FlashGlobals × flash_store_t × Option bp_object_t :=
  bplib_store_flash_dequeue (idealDriver 2 8 40) 2 wEnq.2.1 wEnq.2.2 7

theorem enqueue_dequeue_roundtrip_witness :
    wEnq.1 = BPStatus.SUCCESS ∧ wDeq.1 = BPStatus.SUCCESS ∧
    wDeq.2.2.2 = some ⟨7, 2, 1⟩ ∧
    ((wDeq.2.2.1.read_stage.drop FLASH_OBJECT_HDR_SIZE).take 2) = [1, 2] := by
  have h := enqueue_dequeue_roundtrip (idealDriver 2 8 40) 2 2 wState wStore 7 0
    [1, 2] [] 0 0 1
    (fun _ _ => rfl) (fun _ _ => rfl) (fun _ => rfl) (by decide) (by decide) (by decide)
    ⟨by decide, by decide,
      fun j h1 h2 => by
        have h2x : j < 2 := h2
        have hj : j = 1 := by omega
        subst hj
        decide,
      fun j h1 h2 => by
        have h2x : j < 2 := h2
        have hj : j = 1 := by omega
        subst hj
        decide⟩
    (by decide) (by decide) rfl rfl (by decide) (by decide) rfl (by decide) (by decide)
    (by decide) (by decide) (by decide) (by decide) (by decide) (by decide) (by decide)
    (by decide)
  exact ⟨h.1, h.2.1, h.2.2.1, h.2.2.2⟩

/-- The counterexample run: a formatted two-block device, an object `[1,2,3]`
already queued, then the probe object `[9,9]` enqueued. -/
def rtC0 : FlashGlobals × flash_store_t :=
  ((bplib_store_flash_init (idealDriver 2 8 40) zeroGlobals true).2, freshStore 140)

def rtE1 : BPStatus × FlashGlobals × flash_store_t :=
  bplib_store_flash_enqueue (idealDriver 2 8 40) 100 rtC0.1 rtC0.2 5 [1, 2, 3] [] 0

def rtE2 : BPStatus × FlashGlobals × flash_store_t :=
  bplib_store_flash_enqueue (idealDriver 2 8 40) 100 rtE1.2.1 rtE1.2.2 5 [9, 9] [] 0

def rtDq : BPStatus × FlashGlobals × flash_store_t × Option bp_object_t :=
  bplib_store_flash_dequeue (idealDriver 2 8 40) 100 rtE2.2.1 rtE2.2.2 5

/-- C1 counterexample to the unrestricted round trip: with `[1,2,3]` already
queued, enqueuing `d = [9,9]` and dequeuing succeeds but returns the oldest
object (size 3, SID 1) — not the bytes of `d`: the store is a queue, so the
spec's round trip only holds when the queue starts empty. -/
theorem dequeue_returns_oldest_not_latest :
    rtE1.1 = BPStatus.SUCCESS ∧ rtE2.1 = BPStatus.SUCCESS ∧
    rtDq.1 = BPStatus.SUCCESS ∧
    rtDq.2.2.2 = some ⟨5, 3, 1⟩ ∧
    ((rtDq.2.2.1.read_stage.drop FLASH_OBJECT_HDR_SIZE).take 2) ≠ [9, 9] := by
  refine ⟨rfl, rfl, rfl, rfl, by decide⟩

end BplibFlash
